import Mathlib

/-!
The Alipay client of `ppp` (`alipay.go`).

A shallow embedding of `src/alipay.go`.  The client talks to four kinds of
collaborators whose code is not part of the file: the wall clock
(`getNowSec`), the gateway (`getRequest` + `jsonDecode`), the persistence layer
(`getTrade`, `saveTrade`, `updateTrade`, `saveRefund`, `token`) and a few pure
helpers (signing, encoding, id generation).  They are gathered in `Env`; the
mutable part of an execution (the client's `rs` field, the ledger, the wire
log) is the `World`.
-/

namespace ppp

/-! ## Data model -/

/-- Modelled from the spec: the control outcomes of the response classifier.  Their
declaration is absent from the source, which only uses the five names
`netConnErr`, `nextStop`, `nextRetry`, `nextWaitRetry`, `nextWaitAuth`;
the first is the transport failure reported by `request`. -/
inductive Next where
  | netConnErr
  | nextStop
  | nextRetry
  | nextWaitRetry
  | nextWaitAuth
  deriving DecidableEq

/-- A Go `error` value: `nil` or an error carrying its message. -/
abbrev Err := Option String

/-- Modelled from the spec: `newError(msg)`, declared outside the source file, builds
an error whose `Error()` is `msg`. -/
def newError (msg : String) : Err := some msg

/-- The message of `http.ErrHandlerTimeout`. -/
def ErrHandlerTimeout : String := "http: Handler timeout"

/-- The `Error` record returned by every workflow (zero value: code 0). -/
structure Error where
  Code : Int := 0
  Msg : String := ""
  deriving DecidableEq

/-- An `Auth` record (the fields the source reads or writes). -/
structure Auth where
  ID : String := ""
  MchID : String := ""
  Account : String := ""
  Token : String := ""
  Status : Int := 0
  From : String := ""
  deriving DecidableEq

/-- A `Trade` record (the fields the source reads or writes); `Typ` is the field `Type`. -/
structure Trade where
  ID : String := ""
  OutTradeID : String := ""
  TradeID : String := ""
  Amount : Int := 0
  Status : Int := 0
  From : String := ""
  MchID : String := ""
  UserID : String := ""
  Typ : String := ""
  UpTime : Int := 0
  PayTime : Int := 0
  Create : Int := 0
  deriving DecidableEq

/-- A `Refund` record; it is also the request type of the refund workflow. -/
structure Refund where
  ID : String := ""
  RefundID : String := ""
  OutRefundID : String := ""
  SourceID : String := ""
  MchID : String := ""
  UserID : String := ""
  Amount : Int := 0
  Status : Int := 0
  UpTime : Int := 0
  RefundTime : Int := 0
  Create : Int := 0
  Memo : String := ""
  deriving DecidableEq

/-- The request of the bar-code payment workflow. -/
structure BarPay where
  UserID : String := ""
  MchID : String := ""
  OutTradeID : String := ""
  AuthCode : String := ""
  TradeName : String := ""
  ItemDes : String := ""
  ShopID : String := ""
  Amount : Int := 0
  deriving DecidableEq

/-- The per-client request state `rs`: start time and resolved Auth (`nil` = `none`). -/
structure rs where
  t : Int := 0
  auth : Option Auth := none
  deriving DecidableEq

/-- The client. Key material is kept inside the signing function of `Env`. -/
structure AliPay where
  appid : String := ""
  url : String := ""
  serviceid : String := ""
  notify : String := ""
  rs : rs := {}
  deriving DecidableEq

/-- A value inside a decoded provider payload: a JSON string, or anything else
(number, null, array, object), on which the assertion `.(string)` fails. -/
inductive JVal where
  | str (s : String)
  | other
  deriving DecidableEq

/-- A decoded `map[string]interface{}` payload. -/
abbrev JObj := List (String × JVal)

/-- A value at the top level of a decoded response: an object or anything else. -/
inductive JTop where
  | obj (d : JObj)
  | other
  deriving DecidableEq

/-- What one `getRequest` + `jsonDecode` yields: a transport failure, an
undecodable body, or the decoded top-level object. -/
inductive Body where
  | netFail (err : String)
  | badJson (err : String)
  | json (top : List (String × JTop))
  deriving DecidableEq

/-- The `interface{}` result handed around by `Request`: `nil`, a decoded payload,
or a `*Trade` (possibly a nil pointer). -/
inductive Info where
  | nil
  | map (d : JObj)
  | trade (t : Option Trade)
  deriving DecidableEq

/-- A value of the business parameters (`biz_content` before encoding): a string,
an amount (`float64(cents) / 100.0`, kept as its numerator), or a nested
string map. -/
inductive PVal where
  | str (s : String)
  | amount (cents : Int)
  | obj (fields : List (String × String))
  deriving DecidableEq

/-- A `map[string]string` of request parameters. -/
abbrev Params := List (String × String)

/-- The assignment `m[k] = v` on a parameter map. -/
def mapSet (m : Params) (k v : String) : Params :=
  m.filter (fun p => p.1 ≠ k) ++ [(k, v)]

/-- One request as it goes on the wire: the gateway URL and the query built by
`httpBuildQuery`, kept as the parameter map it was built from. -/
structure Wire where
  url : String
  get : Params
  deriving DecidableEq

/-- The filter maps given to `getTrade` / `updateTrade`: each key is optional. -/
structure TradeFilter where
  outtradeid : Option String := none
  tradeid : Option String := none
  From : Option String := none
  id : Option String := none
  deriving DecidableEq

/-- A persistence write, as logged by the ledger. -/
inductive Write where
  | saveTrade (t : Trade)
  | updateTrade (q : TradeFilter) (t : Trade)
  | saveRefund (r : Refund)
  | saveToken (a : Auth)
  | updateToken (mchid : String) (a : Auth)
  deriving DecidableEq

/-- Everything the source takes from outside the file: the constants declared
elsewhere in the package, and the collaborators, each as a function of how
often it has been consulted so far. -/
structure Env where
  AuthStatusSucc : Int
  TradeStatusSucc : Int
  TradeStatusWaitPay : Int
  TradeStatusClose : Int
  RefundStatusSucc : Int
  AuthErr : Int
  PayErr : Int
  PayErrCode : Int
  PayErrPayed : Int
  TradeErr : Int
  TradeErrNotFound : Int
  TradeErrStatus : Int
  UserErrBalance : Int
  RefundErr : Int
  RefundErrAmount : Int
  SysErrDB : Int
  maxTimeout : Int
  /-- the k-th reading of `getNowSec()` -/
  clock : Nat → Int
  /-- the gateway's answer to the k-th request sent -/
  gateway : Nat → Body
  /-- the k-th value of `randomTimeString()` -/
  ids : Nat → String
  /-- the error, if any, of the k-th persistence write -/
  dbErr : Nat → Option String
  /-- the package-level `token(userid, mchid, ALIPAY)` lookup -/
  token : String → String → Auth
  /-- the signature `base64Encode(A.Signer(params))` -/
  sign : Params → String
  /-- the encoding `string(jsonEncode(params))` of business parameters -/
  jsonEncode : List (String × PVal) → String
  /-- the encoding `string(jsonEncode(info))` of a result -/
  jsonEncodeInfo : Info → String
  sec2Str : Int → String
  str2Sec : String → Int
  /-- the amount `int64(parseFloat(s) * 100)` of a decimal string -/
  amountOf : String → Int

/-- The mutable state of an execution. -/
structure World where
  A : AliPay
  /-- number of clock readings taken -/
  ticks : Nat := 0
  /-- the requests sent to the gateway, oldest first -/
  sent : List Wire := []
  /-- number of ids generated -/
  idCtr : Nat := 0
  trades : List Trade := []
  refunds : List Refund := []
  /-- the stored authorizations -/
  auths : List Auth := []
  /-- the persistence writes attempted, oldest first -/
  writes : List Write := []
  /-- seconds spent in `time.Sleep` -/
  slept : Nat := 0

/-- How a call ends: it returns, it panics, or the model's fuel ran out. -/
inductive Outcome (α : Type) where
  | ok (a : α) (w : World)
  | panic (w : World)
  | outOfFuel (w : World)

/-- The world a call ends in. -/
def Outcome.world {α : Type} : Outcome α → World
  | .ok _ w => w
  | .panic w => w
  | .outOfFuel w => w

/-- The value a call returns, if it returns. -/
def Outcome.val {α : Type} : Outcome α → Option α
  | .ok a _ => some a
  | _ => none

/-- Sequencing of calls. -/
def Outcome.bind {α β : Type} (o : Outcome α) (f : α → World → Outcome β) : Outcome β :=
  match o with
  | .ok a w => f a w
  | .panic w => .panic w
  | .outOfFuel w => .outOfFuel w

def ALIPAY : String := "alipay"
def aliPayDefaultFormat : String := "JSON"
def aliPayDefaultCharset : String := "utf-8"
def aliPayDefaultSignType : String := "RSA2"

/-! ## Collaborators -/

def World.setT (w : World) (t : Int) : World :=
  { w with A := { w.A with rs := { w.A.rs with t := t } } }

def World.setAuth (w : World) (a : Auth) : World :=
  { w with A := { w.A with rs := { w.A.rs with auth := some a } } }

/-- Reading the clock: `getNowSec()`. -/
def getNowSec (E : Env) (w : World) : Int × World :=
  (E.clock w.ticks, { w with ticks := w.ticks + 1 })

/-- The model of `time.Sleep(n * time.Second)`: the time spent shows in later clock readings. -/
def sleep (n : Nat) (w : World) : World :=
  { w with slept := w.slept + n }

/-- Generating an id: `randomTimeString()`. -/
def randomTimeString (E : Env) (w : World) : String × World :=
  (E.ids w.idCtr, { w with idCtr := w.idCtr + 1 })

/-- Whether a trade satisfies a filter map. -/
def TradeFilter.matches (q : TradeFilter) (t : Trade) : Bool :=
  (match q.outtradeid with | some v => decide (t.OutTradeID = v) | none => true) &&
  (match q.tradeid with | some v => decide (t.TradeID = v) | none => true) &&
  (match q.From with | some v => decide (t.From = v) | none => true) &&
  (match q.id with | some v => decide (t.ID = v) | none => true)

/-- Modelled from the spec: `getTrade(filter)`, absent from the source, returns the
first trade satisfying the filter, or the zero-value trade (empty ID) when
there is none. -/
def getTrade (q : TradeFilter) (w : World) : Trade :=
  match w.trades.find? q.matches with
  | some t => t
  | none => {}

/-- Replace the first element satisfying `p`. -/
def replaceFirst {α : Type} (p : α → Bool) (a : α) : List α → List α
  | [] => []
  | x :: xs => if p x then a :: xs else x :: replaceFirst p a xs

/-- Modelled from the spec: `saveTrade(trade)`, absent from the source, inserts a row;
a failing write leaves the ledger as it was and returns the error. -/
def saveTrade (E : Env) (t : Trade) (w : World) : Err × World :=
  match E.dbErr w.writes.length with
  | some e => (some e, { w with writes := w.writes ++ [.saveTrade t] })
  | none => (none, { w with writes := w.writes ++ [.saveTrade t], trades := w.trades ++ [t] })

/-- Modelled from the spec: `updateTrade(filter, trade)`, absent from the source,
overwrites the first row satisfying the filter; a failing write leaves the
ledger as it was and returns the error. -/
def updateTrade (E : Env) (q : TradeFilter) (t : Trade) (w : World) : Err × World :=
  match E.dbErr w.writes.length with
  | some e => (some e, { w with writes := w.writes ++ [.updateTrade q t] })
  | none => (none, { w with writes := w.writes ++ [.updateTrade q t],
                            trades := replaceFirst q.matches t w.trades })

/-- Modelled from the spec: `saveRefund(refund)`, absent from the source, inserts a
refund row; a failing write leaves the ledger as it was. -/
def saveRefund (E : Env) (r : Refund) (w : World) : Err × World :=
  match E.dbErr w.writes.length with
  | some e => (some e, { w with writes := w.writes ++ [.saveRefund r] })
  | none => (none, { w with writes := w.writes ++ [.saveRefund r], refunds := w.refunds ++ [r] })

/-- The table `aliErrMap`. -/
def aliErrMap (E : Env) (key : String) : Option Int :=
  if key = "40004ACQ.PAYMENT_AUTH_CODE_INVALID" then some E.PayErrCode
  else if key = "40004ACQ.TRADE_HAS_SUCCESS" then some E.PayErrPayed
  else if key = "40004ACQ.TRADE_NOT_EXIST" then some E.TradeErrNotFound
  else if key = "40004ACQ.TRADE_STATUS_ERROR" then some E.TradeErrStatus
  else if key = "40004ACQ.SELLER_BALANCE_NOT_ENOUGH" then some E.UserErrBalance
  else if key = "40004ACQ.REFUND_AMT_NOT_EQUAL_TOTAL" then some E.RefundErrAmount
  else if key = "40004ACQ.ACCESS_FORBIDDEN" then some E.AuthErr
  else none

/-- The table `aliTradeStatusMap`; a missing key reads as the zero status. -/
def aliTradeStatusMap (E : Env) (key : String) : Int :=
  if key = "WAIT_BUYER_PAY" then E.TradeStatusWaitPay
  else if key = "TRADE_CLOSED" then E.TradeStatusClose
  else if key = "TRADE_SUCCESS" then E.TradeStatusSucc
  else if key = "TRADE_FINISHED" then E.TradeStatusSucc
  else 0

/-! ## The client's methods -/

/-- The method `A.token(userid, mchid)`: the cached Auth if there is one; otherwise the
single-merchant Auth for an empty user, or the looked-up one, cached on the client. -/
def AliPay.token (E : Env) (userid mchid : String) (w : World) : Auth × World :=
  match w.A.rs.auth with
  | some a => (a, w)
  | none =>
    let a : Auth :=
      if userid = "" then { MchID := w.A.serviceid, Status := E.AuthStatusSucc }
      else E.token userid mchid
    (a, w.setAuth a)

/-- The method `A.sysParams()`: the envelope parameters; the timestamp reads the clock. -/
def AliPay.sysParams (E : Env) (w : World) : Params × World :=
  let (now, w1) := getNowSec E w
  ([("app_id", w.A.appid), ("format", aliPayDefaultFormat), ("charset", aliPayDefaultCharset),
    ("sign_type", aliPayDefaultSignType), ("version", "1.0"),
    ("timestamp", E.sec2Str now)], w1)

/-- The method `A.errorCheck(data)`; `none` is a panic of one of the type assertions
`data["code"].(string)`, `v.(string)`. -/
def AliPay.errorCheck (data : JObj) : Option (Next × Err) :=
  match data.lookup "code" with
  | some (.str code) =>
    let sub : Option String :=
      match data.lookup "sub_code" with
      | none => some ""
      | some (.str s) => some s
      | some .other => none
    match sub with
    | none => none
    | some subCode =>
      if code = "10000" then some (.nextStop, none)
      else if code = "20001" then some (.nextWaitAuth, newError (code ++ subCode))
      else if code = "20000" then some (.nextRetry, newError (code ++ subCode))
      else if code = "10003" then some (.nextWaitRetry, newError (code ++ subCode))
      else some (.nextStop, newError (code ++ subCode))
  | _ => none

/-- The method `A.request(url, relKey)`: one round trip to the gateway and its classification. -/
def AliPay.request (E : Env) (url : String) (get : Params) (relKey : String) (w : World) :
    Outcome (Info × Next × Err) :=
  let body := E.gateway w.sent.length
  let w1 : World := { w with sent := w.sent ++ [⟨url, get⟩] }
  match body with
  | .netFail err => .ok (.nil, .netConnErr, some err) w1
  | .badJson err => .ok (.nil, .nextStop, some err) w1
  | .json top =>
    match top.lookup relKey with
    | none => .ok (.nil, .nextStop, newError ("支付宝返回数据中不存在" ++ relKey)) w1
    | some .other => .ok (.nil, .nextStop, newError ("支付宝返回数据中" ++ relKey ++ "参数格式错误")) w1
    | some (.obj datamap) =>
      match AliPay.errorCheck datamap with
      | none => .panic w1
      | some (next, err) => .ok (.map datamap, next, err) w1

/-- The `requestSimple` record; `L` is the type of the local variables its callback
`fs` captures, which the callback reads and writes. -/
structure requestSimple (L : Type) where
  url : String
  get : Params
  relKey : String
  fs : Option (Info → Next → Err → L → World → Outcome (Info × Err × L)) := none

/-- The first statement of `Request`: `if A.rs.t == 0 { A.rs.t = getNowSec() }`. -/
def startClock (E : Env) (w : World) : World :=
  if w.A.rs.t = 0 then (getNowSec E w).2.setT (getNowSec E w).1 else w

/-- The method `A.Request(d)`: start the deadline clock if it is not running, give up when the
deadline has passed, otherwise send and hand a failure to the callback. -/
def AliPay.Request (E : Env) {L : Type} (d : requestSimple L) (l : L) (w : World) :
    Outcome (Info × Err × L) :=
  let w2 := (getNowSec E (startClock E w)).2
  if (getNowSec E (startClock E w)).1 - w2.A.rs.t > E.maxTimeout then
    .ok (.nil, some ErrHandlerTimeout, l) w2
  else
    match AliPay.request E d.url d.get d.relKey w2 with
    | .ok (result, next, err) w3 =>
      match err, d.fs with
      | some _, some fs => fs result next err l w3
      | _, _ => .ok (result, err, l) w3
    | .panic w3 => .panic w3
    | .outOfFuel w3 => .outOfFuel w3

/-- The callback `rq.fs` shared by Refund, Cancel and TradeInfo: a transport failure
or an immediate-retry outcome sleeps one second and sends `rq` again, anything
else is returned as it is.  The number bounds how many times it may send again. -/
def retryFs (E : Env) (url : String) (get : Params) (relKey : String) :
    Nat → Info → Next → Err → Unit → World → Outcome (Info × Err × Unit)
  | 0, result, next, err, l, w =>
    match next with
    | .netConnErr | .nextRetry => .outOfFuel (sleep 1 w)
    | _ => .ok (result, err, l) w
  | n + 1, result, next, err, l, w =>
    match next with
    | .netConnErr | .nextRetry =>
      AliPay.Request E ⟨url, get, relKey, some (retryFs E url get relKey n)⟩ l (sleep 1 w)
    | _ => .ok (result, err, l) w

/-- The request `rq` of Refund, Cancel and TradeInfo, with its callback. -/
def retryRq (E : Env) (url : String) (get : Params) (relKey : String) (fuel : Nat) :
    requestSimple Unit :=
  ⟨url, get, relKey, some (retryFs E url get relKey fuel)⟩

/-- The type assertion `d[k].(string)`; `none` is its panic. -/
def wantStr (d : JObj) (k : String) : Option String :=
  match d.lookup k with
  | some (.str s) => some s
  | _ => none

/-- The lookup `aliErrMap[err.Error()]` with the workflow's generic code as default. -/
def errCode (E : Env) (msg : String) (dflt : Int) : Int :=
  match aliErrMap E msg with
  | some v => v
  | none => dflt

/-- The signed parameters of the query request built by TradeInfo. -/
def tradeInfoParams (E : Env) (auth : Auth) (req : Trade) (w : World) : Params × World :=
  let params := [("out_trade_no", PVal.str req.OutTradeID), ("trade_no", PVal.str req.TradeID)]
  let (sp, w1) := AliPay.sysParams E w
  let sp := mapSet sp "method" "alipay.trade.query"
  let sp := mapSet sp "biz_content" (E.jsonEncode params)
  let sp := if auth.MchID ≠ w1.A.serviceid then mapSet sp "app_auth_token" auth.Token else sp
  (mapSet sp "sign" (E.sign sp), w1)

/-- The record TradeInfo builds from a successful query: amount, status and provider
trade number from the payload, internal ID, creation time and type from the local
record `trade`, merchant from the cached Auth `a`. -/
def syncedTrade (E : Env) (req trade : Trade) (a : Auth) (amount status tradeNo : String)
    (now : Int) : Trade :=
  { Amount := E.amountOf amount, Status := aliTradeStatusMap E status, ID := trade.ID,
    UpTime := now, OutTradeID := req.OutTradeID, TradeID := tradeNo,
    Create := trade.Create, Typ := trade.Typ, From := ALIPAY,
    MchID := a.MchID, UserID := req.UserID }

/-- The payment time of TradeInfo: set from `send_pay_date` when the payload has the
key; `none` is the panic of `paytime.(string)`. -/
def withPayDate (E : Env) (tmpresult : JObj) (t : Trade) : Option Trade :=
  match tmpresult.lookup "send_pay_date" with
  | none => some t
  | some (.str s) => some { t with PayTime := E.str2Sec s }
  | some .other => none

/-- The part of TradeInfo after `A.Request(rq)` has returned `info, err`;
`trade` is the local record found before. -/
def tradeInfoSync (E : Env) (req trade : Trade) (info : Info) (err : Err) (w : World) :
    Outcome (Option Trade × Error) :=
  match err with
  | some msg =>
    .ok (some trade, { Msg := E.jsonEncodeInfo info, Code := errCode E msg E.TradeErr }) w
  | none =>
    match info with
    | .map tmpresult =>
      match wantStr tmpresult "total_amount" with
      | none => .panic w
      | some amount =>
      match wantStr tmpresult "trade_status" with
      | none => .panic w
      | some status =>
      let (now, w1) := getNowSec E w
      match wantStr tmpresult "trade_no" with
      | none => .panic w1
      | some tradeNo =>
      match w1.A.rs.auth with
      | none => .panic w1
      | some a =>
      match withPayDate E tmpresult (syncedTrade E req trade a amount status tradeNo now) with
      | none => .panic w1
      | some t1 =>
        if t1.ID = "" then .ok (some t1, {}) w1
        else
          let (werr, w2) := updateTrade E { id := some t1.ID } t1 w1
          match werr with
          | some m => .ok (some t1, { Code := E.SysErrDB, Msg := m }) w2
          | none => .ok (some t1, {}) w2
    | _ => .panic w

/-- The filter map `q` built by TradeInfo: the channel, and the order ids that are
not empty. -/
def tradeInfoFilter (req : Trade) : TradeFilter :=
  { From := some ALIPAY,
    outtradeid := if req.OutTradeID ≠ "" then some req.OutTradeID else none,
    tradeid := if req.TradeID ≠ "" then some req.TradeID else none }

/-- The method `A.TradeInfo(req, sync)`. -/
def AliPay.TradeInfo (E : Env) (fuel : Nat) (req : Trade) (sync : Bool) (w : World) :
    Outcome (Option Trade × Error) :=
  let (auth, w1) := AliPay.token E req.UserID req.MchID w
  if auth.Status ≠ E.AuthStatusSucc then .ok (none, { Code := E.AuthErr }) w1
  else
    let trade := getTrade (tradeInfoFilter req) w1
    if !sync then
      .ok (some trade, if trade.ID = "" then { Code := E.TradeErrNotFound } else {}) w1
    else
      let (sp, w2) := tradeInfoParams E auth req w1
      (AliPay.Request E (retryRq E w2.A.url sp "alipay_trade_query_response" fuel) () w2).bind
        (fun r w3 => tradeInfoSync E req trade r.1 r.2.1 w3)

/-- The signed parameters of the cancel request built by Cancel. -/
def cancelParams (E : Env) (auth : Auth) (req : Trade) (w : World) : Params × World :=
  let params := [("out_trade_no", PVal.str req.OutTradeID), ("trade_no", PVal.str req.TradeID)]
  let (sp, w1) := AliPay.sysParams E w
  let sp := mapSet sp "method" "alipay.trade.cancel"
  let sp := mapSet sp "biz_content" (E.jsonEncode params)
  let sp := if auth.MchID ≠ w1.A.serviceid then mapSet sp "app_auth_token" auth.Token else sp
  (mapSet sp "sign" (E.sign sp), w1)

/-- The method `A.Cancel(req)`. -/
def AliPay.Cancel (E : Env) (fuel : Nat) (req : Trade) (w : World) : Outcome Error :=
  let (auth, w1) := AliPay.token E req.UserID req.MchID w
  if auth.Status ≠ E.AuthStatusSucc then .ok { Code := E.AuthErr } w1
  else
    let (sp, w2) := cancelParams E auth req w1
    (AliPay.Request E (retryRq E w2.A.url sp "alipay_trade_cancel_response" fuel) () w2).bind
      (fun r w3 =>
        match r.2.1 with
        | some msg => .ok { Msg := E.jsonEncodeInfo r.1, Code := errCode E msg E.TradeErr } w3
        | none => .ok {} w3)

/-- The signed parameters of the refund request built by Refund. -/
def refundParams (E : Env) (auth : Auth) (req : Refund) (w : World) : Params × World :=
  let params := [("out_trade_no", PVal.str req.SourceID), ("out_request_no", PVal.str req.OutRefundID),
    ("refund_reason", PVal.str req.Memo), ("refund_amount", PVal.amount req.Amount)]
  let (sp, w1) := AliPay.sysParams E w
  let sp := mapSet sp "method" "alipay.trade.refund"
  let sp := if auth.MchID ≠ w1.A.serviceid then mapSet sp "app_auth_token" auth.Token else sp
  let sp := mapSet sp "biz_content" (E.jsonEncode params)
  (mapSet sp "sign" (E.sign sp), w1)

/-- The part of Refund after `A.Request(rq)` has returned `info, err`;
`e` is the error record left by the preceding TradeInfo. -/
def refundDone (E : Env) (req : Refund) (e : Error) (info : Info) (err : Err) (w : World) :
    Outcome (Option Refund × Error) :=
  match err with
  | some msg => .ok (none, { Msg := E.jsonEncodeInfo info, Code := errCode E msg E.RefundErr }) w
  | none =>
    match info with
    | .map result =>
      match wantStr result "trade_no" with
      | none => .panic w
      | some refundID =>
        let (id, w1) := randomTimeString E w
        match w1.A.rs.auth with
        | none => .panic w1
        | some a =>
          let refund : Refund :=
            { RefundID := refundID, ID := id, OutRefundID := req.OutRefundID, MchID := a.MchID,
              UserID := req.UserID, Amount := req.Amount, SourceID := req.SourceID,
              Status := E.RefundStatusSucc, UpTime := w1.A.rs.t, RefundTime := w1.A.rs.t,
              Create := w1.A.rs.t, Memo := req.Memo }
          .ok (some refund, e) (saveRefund E refund w1).2
    | _ => .panic w

/-- The method `A.Refund(req)`. -/
def AliPay.Refund (E : Env) (fuel : Nat) (req : Refund) (w : World) :
    Outcome (Option Refund × Error) :=
  let (auth, w1) := AliPay.token E req.UserID req.MchID w
  if auth.Status ≠ E.AuthStatusSucc then .ok (none, { Code := E.AuthErr }) w1
  else
    (AliPay.TradeInfo E fuel { OutTradeID := req.SourceID } true w1).bind (fun r w2 =>
      match r.1 with
      | none => .panic w2
      | some trade =>
        if trade.ID = "" ∨ r.2.Code = E.TradeErrNotFound then
          .ok (none, { r.2 with Code := E.TradeErrNotFound }) w2
        else if trade.Status ≠ E.TradeStatusSucc then
          .ok (none, { r.2 with Code := E.TradeErrStatus }) w2
        else
          let (sp, w3) := refundParams E auth req w2
          (AliPay.Request E (retryRq E w3.A.url sp "alipay_trade_refund_response" fuel) () w3).bind
            (fun r1 w4 => refundDone E req r.2 r1.1 r1.2.1 w4))

/-- The variables of BarPay that its callback captures: the named results `trade`
and `e`, and the two flags. -/
structure BarPayLocals where
  trade : Option Trade
  e : Error := {}
  needCancel : Bool := false
  paySucc : Bool := false

/-- The signed parameters of the payment request built by BarPay. -/
def barPayParams (E : Env) (auth : Auth) (req : BarPay) (w : World) : Params × World :=
  let params := [("out_trade_no", PVal.str req.OutTradeID), ("scene", PVal.str "bar_code"),
    ("auth_code", PVal.str req.AuthCode), ("subject", PVal.str req.TradeName),
    ("total_amount", PVal.amount req.Amount), ("body", PVal.str req.ItemDes),
    ("store_id", PVal.str req.ShopID)]
  let params := if w.A.serviceid ≠ "" then
      params ++ [("extend_params", PVal.obj [("sys_service_provider_id", w.A.serviceid)])]
    else params
  let (sp, w1) := AliPay.sysParams E w
  let sp := mapSet sp "method" "alipay.trade.pay"
  let sp := mapSet sp "biz_content" (E.jsonEncode params)
  let sp := if auth.MchID ≠ w1.A.serviceid then mapSet sp "app_auth_token" auth.Token else sp
  (mapSet sp "sign" (E.sign sp), w1)

/-- The polling loop of BarPay's callback (`for getNowSec()-A.rs.t < maxTimeout`);
the number bounds its iterations. -/
def barPayPoll (E : Env) (req : BarPay) : Nat → BarPayLocals → World → Outcome BarPayLocals
  | 0, l, w =>
    let (now, w1) := getNowSec E w
    if now - w1.A.rs.t < E.maxTimeout then .outOfFuel w1 else .ok l w1
  | n + 1, l, w =>
    let (now, w1) := getNowSec E w
    if now - w1.A.rs.t < E.maxTimeout then
      (AliPay.TradeInfo E n { OutTradeID := req.OutTradeID } true w1).bind (fun r w2 =>
        let l1 : BarPayLocals := { l with trade := r.1, e := r.2 }
        if r.2.Code = 0 then
          match r.1 with
          | none => .panic w2
          | some t =>
            if t.Status = E.TradeStatusSucc then
              barPayPoll E req n { l1 with paySucc := true, needCancel := false } (sleep 3 w2)
            else barPayPoll E req n l1 (sleep 3 w2)
        else barPayPoll E req n l1 (sleep 3 w2))
    else .ok l w1

/-- The callback `rq.fs` of BarPay; the number bounds how many further requests,
queries and polling rounds it may start. -/
def barPayFs (E : Env) (req : BarPay) (url : String) (get : Params) (relKey : String) :
    Nat → Info → Next → Err → BarPayLocals → World → Outcome (Info × Err × BarPayLocals)
  | 0, _, next, _, l, w =>
    match next with
    | .netConnErr => .outOfFuel (sleep 1 w)
    | .nextRetry => .outOfFuel w
    | .nextWaitRetry => .outOfFuel w
    | _ =>
      let l1 := { l with needCancel := true }
      .ok (.trade l1.trade, newError l1.e.Msg, l1) w
  | n + 1, _, next, _, l, w =>
    match next with
    | .netConnErr =>
      AliPay.Request E ⟨url, get, relKey, some (barPayFs E req url get relKey n)⟩ l (sleep 1 w)
    | .nextRetry =>
      (AliPay.TradeInfo E n { OutTradeID := req.OutTradeID } true w).bind (fun r w1 =>
        let l1 : BarPayLocals := { l with trade := r.1, e := r.2 }
        if r.2.Code = E.TradeErrNotFound then
          AliPay.Request E ⟨url, get, relKey, some (barPayFs E req url get relKey n)⟩ l1 w1
        else
          match r.1 with
          | none => .panic w1
          | some t =>
            let l2 := if t.Status = E.TradeStatusSucc then { l1 with paySucc := true }
              else { l1 with needCancel := true }
            .ok (.trade l2.trade, newError l2.e.Msg, l2) w1)
    | .nextWaitRetry =>
      (barPayPoll E req n { l with needCancel := true } w).bind (fun l1 w1 =>
        .ok (.trade l1.trade, newError l1.e.Msg, l1) w1)
    | _ =>
      let l1 := { l with needCancel := true }
      .ok (.trade l1.trade, newError l1.e.Msg, l1) w

/-- The block `if paySucc { ... }` of BarPay: the local record is completed and
inserted (when it has no internal ID) or written over the row with its ID. -/
def barPaySave (E : Env) (req : BarPay) (info : Info) (l1 : BarPayLocals) (w : World) :
    Outcome (Option Trade) :=
  if l1.paySucc then
    match l1.trade with
    | none => .panic w
    | some result =>
      let tid : Option String :=
        match info with
        | .trade (some tmpresult) => some tmpresult.TradeID
        | .trade none => none
        | .map tmpresult => wantStr tmpresult "trade_no"
        | .nil => some result.TradeID
      match tid, w.A.rs.auth with
      | some tradeID, some a =>
        let result : Trade :=
          { result with TradeID := tradeID, Amount := req.Amount, From := ALIPAY,
                        UserID := req.UserID, MchID := a.MchID, UpTime := w.A.rs.t,
                        PayTime := w.A.rs.t, Status := E.TradeStatusSucc }
        if result.ID = "" then
          let result : Trade :=
            { result with OutTradeID := req.OutTradeID, ID := (randomTimeString E w).1,
                          Create := w.A.rs.t }
          .ok (some result) (saveTrade E result (randomTimeString E w).2).2
        else .ok (some result) (updateTrade E { id := some result.ID } result w).2
      | _, _ => .panic w
  else .ok l1.trade w

/-- The variables of BarPay once `A.Request(rq)` has returned `info, err`: an error
sets the code and message of `e`, a nil error sets the flags to success. -/
def barPayJudge (E : Env) (info : Info) (err : Err) (l : BarPayLocals) : BarPayLocals :=
  match err with
  | some msg => { l with e := { Msg := E.jsonEncodeInfo info, Code := errCode E msg E.PayErr } }
  | none => { l with paySucc := true, needCancel := false }

/-- The part of BarPay after `A.Request(rq)` has returned `info, err`, with the
captured variables as the callback left them. -/
def barPayDone (E : Env) (fuel : Nat) (req : BarPay) (info : Info) (err : Err)
    (l : BarPayLocals) (w : World) : Outcome (Option Trade × Error) :=
  (barPaySave E req info (barPayJudge E info err l) w).bind (fun trade w1 =>
    if (barPayJudge E info err l).needCancel then
      (AliPay.Cancel E fuel { OutTradeID := req.OutTradeID } w1).bind (fun _ w2 =>
        .ok (trade, (barPayJudge E info err l).e) w2)
    else .ok (trade, (barPayJudge E info err l).e) w1)

/-- The method `A.BarPay(req)`. -/
def AliPay.BarPay (E : Env) (fuel : Nat) (req : BarPay) (w : World) :
    Outcome (Option Trade × Error) :=
  let (auth, w1) := AliPay.token E req.UserID req.MchID w
  if auth.Status ≠ E.AuthStatusSucc then .ok (none, { Code := E.AuthErr }) w1
  else
    let trade := getTrade { outtradeid := some req.OutTradeID } w1
    if trade.ID ≠ "" ∧ trade.Status = E.TradeStatusSucc then
      .ok (some trade, { Code := E.PayErrPayed }) w1
    else
      let (sp, w2) := barPayParams E auth req w1
      (AliPay.Request E
          ⟨w2.A.url, sp, "alipay_trade_pay_response",
            some (barPayFs E req w2.A.url sp "alipay_trade_pay_response" fuel)⟩
          { trade := some trade } w2).bind
        (fun r w3 => barPayDone E fuel req r.1 r.2.1 r.2.2 w3)

/-! ## The workflows as one family -/

/-- The four workflows that consume a resolved Auth, each with its request. -/
inductive Call where
  | barPay (req : BarPay)
  | refund (req : Refund)
  | cancel (req : Trade)
  | tradeInfo (req : Trade) (sync : Bool)

/-- The user the workflow resolves its Auth for. -/
def Call.UserID : Call → String
  | .barPay req => req.UserID
  | .refund req => req.UserID
  | .cancel req => req.UserID
  | .tradeInfo req _ => req.UserID

/-- The merchant the workflow resolves its Auth for. -/
def Call.MchID : Call → String
  | .barPay req => req.MchID
  | .refund req => req.MchID
  | .cancel req => req.MchID
  | .tradeInfo req _ => req.MchID

/-- Running a workflow and keeping the `Error` it returns. -/
def Call.run (E : Env) (fuel : Nat) : Call → World → Outcome Error
  | .barPay req, w => (AliPay.BarPay E fuel req w).bind (fun r w1 => .ok r.2 w1)
  | .refund req, w => (AliPay.Refund E fuel req w).bind (fun r w1 => .ok r.2 w1)
  | .cancel req, w => AliPay.Cancel E fuel req w
  | .tradeInfo req sync, w => (AliPay.TradeInfo E fuel req sync w).bind (fun r w1 => .ok r.2 w1)

/-! ## A concrete environment -/

/-- An environment with concrete constants, a chosen gateway and a chosen clock; the
token lookup knows one sub-merchant whose authorization is still unverified. -/
def demoEnv (gateway : Nat → Body) (clock : Nat → Int) : Env where
  AuthStatusSucc := 1
  TradeStatusSucc := 1
  TradeStatusWaitPay := 0
  TradeStatusClose := -1
  RefundStatusSucc := 1
  AuthErr := 1001
  PayErr := 2001
  PayErrCode := 2002
  PayErrPayed := 2003
  TradeErr := 3001
  TradeErrNotFound := 3002
  TradeErrStatus := 3003
  UserErrBalance := 4001
  RefundErr := 5001
  RefundErrAmount := 5002
  SysErrDB := 9001
  maxTimeout := 1800
  clock := clock
  gateway := gateway
  ids := fun k => String.mk (List.replicate (k + 1) 'i')
  dbErr := fun _ => none
  token := fun _ _ => { ID := "a1", MchID := "2088sub", Token := "tok", Status := 0, From := ALIPAY }
  sign := fun _ => "sig"
  jsonEncode := fun _ => "biz"
  jsonEncodeInfo := fun _ => "info"
  sec2Str := fun _ => "ts"
  str2Sec := fun _ => 0
  amountOf := fun _ => 0

/-- A gateway that is never reached. -/
def deadGateway : Nat → Body := fun _ => .netFail "unreachable"

/-- A clock that advances one second per reading. -/
def demoClock : Nat → Int := fun k => 1000 + k

/-- A fresh client of the service provider `2088`, with an empty ledger. -/
def demoWorld : World := { A := { appid := "app", url := "https://gw", serviceid := "2088" } }

/-- The sub-code `errorCheck` reads from a payload: the string under `sub_code`, or
the empty string. -/
def subCodeOf (data : JObj) : String :=
  match data.lookup "sub_code" with
  | some (.str s) => s
  | _ => ""

/-! ## What a run leaves alone -/

/-- The footprint of a piece of a workflow that takes the world from `w` to `w'`:
the configuration is untouched, a cached Auth and a running deadline clock are
kept, no refund row and no id is produced, every request added to the wire log
satisfies `P`, every write added to the write log satisfies `Q`, and the ledger
of trades moves along `T`. -/
structure Frame (P : Wire → Prop) (Q : Write → Prop) (T : List Trade → List Trade → Prop)
    (w w' : World) : Prop where
  appid : w'.A.appid = w.A.appid
  url : w'.A.url = w.A.url
  serviceid : w'.A.serviceid = w.A.serviceid
  auth : w.A.rs.auth ≠ none → w'.A.rs.auth = w.A.rs.auth
  t : w.A.rs.t ≠ 0 → w'.A.rs.t = w.A.rs.t
  refunds : w'.refunds = w.refunds
  idCtr : w'.idCtr = w.idCtr
  ticks : w.ticks ≤ w'.ticks
  sent : ∃ new, w'.sent = w.sent ++ new ∧ ∀ r ∈ new, P r
  writes : ∃ new, w'.writes = w.writes ++ new ∧ ∀ x ∈ new, Q x
  trades : T w.trades w'.trades

/-- A ledger relation that can be used along a run: it relates every ledger to
itself and composes. -/
structure Preorder2 (T : List Trade → List Trade → Prop) : Prop where
  refl : ∀ l, T l l
  trans : ∀ a b c, T a b → T b c → T a c

/-- The delegation rule on one request, for the Auth `a` and the service merchant
`s`: the key `app_auth_token` is there, with the Auth's token, exactly when the
Auth's merchant is not the service merchant. -/
def WireOK (a : Auth) (s : String) (r : Wire) : Prop :=
  r.get.lookup "app_auth_token" = if a.MchID ≠ s then some a.Token else none

/-- A request of method `m` that obeys the delegation rule. -/
def IsWire (a : Auth) (s : String) (m : String) (r : Wire) : Prop :=
  WireOK a s r ∧ r.get.lookup "method" = some m

/-- The Auth `a` is cached on the client, whose service merchant is `s`. -/
def Ctx (a : Auth) (s : String) (w : World) : Prop :=
  w.A.rs.auth = some a ∧ w.A.serviceid = s

/-- The write is an update of a trade. -/
def IsUpdate (x : Write) : Prop := ∃ q t, x = Write.updateTrade q t

/-- What the ledger relation `T` has to allow for a sync of the order `out`:
overwriting, in any ledger, a row found under the channel and the order id by a
record with the same internal ID, that order id and the channel. -/
def AllowsSync (T : List Trade → List Trade → Prop) (out : String) : Prop :=
  ∀ (l : List Trade) (t0 t1 : Trade), t0 ∈ l →
    (tradeInfoFilter { OutTradeID := out }).matches t0 = true →
    t1.ID = t0.ID → t1.OutTradeID = out → t1.From = ALIPAY →
    T l (replaceFirst (TradeFilter.matches { id := some t1.ID }) t1 l)

/-- The wire log of `w'` is the wire log of `w` followed by requests that satisfy `P`. -/
def Sends (P : Wire → Prop) (w w' : World) : Prop :=
  ∃ new, w'.sent = w.sent ++ new ∧ ∀ r ∈ new, P r

/-- The request `rq` that TradeInfo (in sync mode, with a valid Auth) hands to
`Request`, and the world at that point. -/
def tradeInfoRq (E : Env) (fuel : Nat) (req : Trade) (w : World) : requestSimple Unit × World :=
  let tk := AliPay.token E req.UserID req.MchID w
  let tp := tradeInfoParams E tk.1 req tk.2
  (retryRq E tp.2.A.url tp.1 "alipay_trade_query_response" fuel, tp.2)

/-- A gateway that answers every request with the record of a paid trade. -/
def paidGateway : Nat → Body := fun _ =>
  .json [("alipay_trade_query_response", .obj [("code", .str "10000"),
    ("trade_no", .str "T1"), ("trade_status", .str "TRADE_SUCCESS"),
    ("total_amount", .str "1.00")])]

/-- The fresh client with one unpaid trade `o1` in the ledger. -/
def unpaidWorld : World :=
  { demoWorld with trades := [{ ID := "t1", OutTradeID := "o1", From := ALIPAY, Create := 500 }] }

/-- The payload of `paidGateway`. -/
def paidPayload : JObj :=
  [("code", .str "10000"), ("trade_no", .str "T1"), ("trade_status", .str "TRADE_SUCCESS"),
    ("total_amount", .str "1.00")]

/-- A gateway whose first answer (to the payment) is `10003`, the user is still
entering the password, and whose later answers (to the status queries) report the
trade paid. -/
def waitGateway : Nat → Body := fun k =>
  if k = 0 then
    .json [("alipay_trade_pay_response", .obj [("code", .str "10003"),
      ("sub_code", .str "ACQ.ORDER_SUCCESS_PAY_INPROCESS")])]
  else paidGateway k

/-- A clock that stands at 1000 for its first twelve readings and reads 5000 from
then on. -/
def jumpClock : Nat → Int := fun k => if k < 12 then 1000 else 5000

/-- A gateway whose first answer (to the payment) is `20000`, whose second answer
(to the status query) is that the trade does not exist, and which then accepts
the payment. -/
def retryGateway : Nat → Body := fun k =>
  if k = 0 then
    .json [("alipay_trade_pay_response", .obj [("code", .str "20000"),
      ("sub_code", .str "isp.unknow-error")])]
  else if k = 1 then
    .json [("alipay_trade_query_response", .obj [("code", .str "40004"),
      ("sub_code", .str "ACQ.TRADE_NOT_EXIST")])]
  else
    .json [("alipay_trade_pay_response", .obj [("code", .str "10000"),
      ("trade_no", .str "T1")])]

/-- A bar-code payment of the order `o1` in single-merchant mode. -/
def demoBarPay : BarPay := { OutTradeID := "o1", AuthCode := "28", Amount := 100 }

/-- The methods of the requests on the wire log, oldest first. -/
def methodsSent (w : World) : List (Option String) :=
  w.sent.map (fun r => r.get.lookup "method")

/-! ## Well-formed answers and passing time -/

/-- A query payload on which no type assertion of `errorCheck` or of TradeInfo
fails: `code` is a string, `sub_code` and `send_pay_date` are strings when present,
and a success payload carries the amount, the status and the trade number. -/
def PayloadOK (d : JObj) : Prop :=
  (∃ c, d.lookup "code" = some (.str c)) ∧ d.lookup "sub_code" ≠ some .other ∧
  (d.lookup "code" = some (.str "10000") →
    (∃ s, wantStr d "total_amount" = some s) ∧ (∃ s, wantStr d "trade_status" = some s) ∧
    (∃ s, wantStr d "trade_no" = some s) ∧ d.lookup "send_pay_date" ≠ some .other)

/-- Every answer of the gateway that carries a query payload carries a well-formed one. -/
def GatewayOK (E : Env) : Prop :=
  ∀ k top d, E.gateway k = .json top →
    top.lookup "alipay_trade_query_response" = some (.obj d) → PayloadOK d

/-- Time passes: the clock never reads zero, and it eventually stays more than
`maxTimeout` beyond any given instant. -/
def ClockRuns (E : Env) : Prop :=
  (∀ k, E.clock k ≠ 0) ∧ ∀ t, ∃ K, ∀ k, K ≤ k → E.clock k - t > E.maxTimeout

/-- What `Request` returns for a query over a well-formed gateway: a nil error comes
with a well-formed success payload. -/
def QueryRes (info : Info) (err : Err) : Prop :=
  err = none → ∃ d, info = .map d ∧ PayloadOK d ∧ d.lookup "code" = some (.str "10000")

/-- A gateway that knows no trade. -/
def notExistGateway : Nat → Body := fun _ =>
  .json [("alipay_trade_query_response", .obj [("code", .str "40004"),
    ("sub_code", .str "ACQ.TRADE_NOT_EXIST")])]

/-- A gateway that reports every trade paid and accepts every refund. -/
def refundGateway : Nat → Body := fun _ =>
  .json [("alipay_trade_query_response", .obj paidPayload),
    ("alipay_trade_refund_response", .obj [("code", .str "10000"), ("trade_no", .str "T1")])]

/-- A refund of the order `o1` in single-merchant mode. -/
def demoRefund : Refund := { SourceID := "o1", OutRefundID := "r1", Amount := 100 }

/-! ## The ledger invariant -/

/-- The two ids of a trade: the internal one and the external order id. -/
def tradeKey (t : Trade) : String × String := (t.ID, t.OutTradeID)

/-- A well-kept ledger of this channel: internal IDs are pairwise distinct and not
empty, external order ids are pairwise distinct, and every row is an Alipay row. -/
def LedgerOK (l : List Trade) : Prop :=
  (l.map (fun t => t.ID)).Nodup ∧ (l.map (fun t => t.OutTradeID)).Nodup ∧
  ∀ t ∈ l, t.ID ≠ "" ∧ t.From = ALIPAY

/-- A change of a well-kept ledger that keeps it well kept and keeps the two ids of
every row. -/
def Keeps (l l' : List Trade) : Prop :=
  LedgerOK l → LedgerOK l' ∧ l'.map tradeKey = l.map tradeKey

/-- The ids still to be generated are new: not empty, not in the ledger, and
pairwise distinct. -/
def IdsFresh (E : Env) (w : World) : Prop :=
  (∀ k, w.idCtr ≤ k → E.ids k ≠ "" ∧ E.ids k ∉ w.trades.map (fun t => t.ID)) ∧
  ∀ j k, w.idCtr ≤ j → j < k → E.ids j ≠ E.ids k

/-- The local record `tr` of BarPay mirrors the ledger for the order `x`: with an
empty internal ID it stands for an order the ledger does not have, with an
internal ID it stands for the row of that ID, which is the row of the order. -/
def Tracks (x : String) (tr : Option Trade) (l : List Trade) : Prop :=
  ∀ t, tr = some t →
    (t.ID = "" → x ∉ l.map (fun t => t.OutTradeID)) ∧
    (t.ID ≠ "" → (t.ID, x) ∈ l.map tradeKey ∧ t.OutTradeID = x)

/-- A sequence of BarPay calls on one client, each with its fuel, one after the
other; the world is handed on however a call ends. -/
def barPaySeq (E : Env) : List (Nat × BarPay) → World → World
  | [], w => w
  | p :: ps, w => barPaySeq E ps (AliPay.BarPay E p.1 p.2 w).world

/-- The fresh client whose ledger holds the order `o1` as a trade of another channel. -/
def foreignWorld : World :=
  { demoWorld with trades := [{ ID := "w1", OutTradeID := "o1", From := "wxpay" }] }

/-- The fresh client whose ledger holds the order `o1` as a paid Alipay trade. -/
def paidWorld : World :=
  { demoWorld with trades := [{ ID := "t1", OutTradeID := "o1", From := ALIPAY, Status := 1 }] }

/-! ## Token exchange -/

/-- Modelled from the spec: `getToken(mchid, from)`, absent from the source, returns the
first stored Auth of the merchant and channel, or the zero-value Auth (empty ID)
when there is none. -/
def getToken (mchid chan : String) (w : World) : Auth :=
  match w.auths.find? (fun a => decide (a.MchID = mchid) && decide (a.From = chan)) with
  | some a => a
  | none => {}

/-- Modelled from the spec: `saveToken(auth)`, absent from the source, inserts an Auth
row; a failing write leaves the store as it was and returns the error. -/
def saveToken (E : Env) (a : Auth) (w : World) : Err × World :=
  match E.dbErr w.writes.length with
  | some e => (some e, { w with writes := w.writes ++ [.saveToken a] })
  | none => (none, { w with writes := w.writes ++ [.saveToken a], auths := w.auths ++ [a] })

/-- Modelled from the spec: `updateToken(mchid, from, auth)`, absent from the source,
overwrites the first Auth row of the merchant and channel; a failing write leaves
the store as it was and returns the error. -/
def updateToken (E : Env) (mchid chan : String) (a : Auth) (w : World) : Err × World :=
  match E.dbErr w.writes.length with
  | some e => (some e, { w with writes := w.writes ++ [.updateToken mchid a] })
  | none => (none, { w with writes := w.writes ++ [.updateToken mchid a],
                            auths := replaceFirst
                              (fun b => decide (b.MchID = mchid) && decide (b.From = chan)) a
                              w.auths })

/-- The signed parameters of the token request built by Auth. -/
def authParams (E : Env) (code : String) (w : World) : Params × World :=
  let params := [("grant_type", PVal.str "authorization_code"), ("code", PVal.str code)]
  let (sp, w1) := AliPay.sysParams E w
  let sp := mapSet sp "method" "alipay.open.auth.token.app"
  let sp := mapSet sp "biz_content" (E.jsonEncode params)
  (mapSet sp "sign" (E.sign sp), w1)

/-- The first `if err != nil { ... } else { ... }` of Auth, after `A.Request` has
returned `info, err`: a remote error sets the code and message of `e`; a success
stores the token, and `err` becomes the error of that write.  The result is
`auth`, `e` and `err` as the block leaves them. -/
def authExchange (E : Env) (info : Info) (err : Err) (w : World) :
    Outcome (Option Auth × Error × Err) :=
  match err with
  | some msg =>
    .ok (none, { Msg := E.jsonEncodeInfo info, Code := errCode E msg E.AuthErr }, err) w
  | none =>
    match info with
    | .map tmpresult =>
      match wantStr tmpresult "user_id" with
      | none => .panic w
      | some mchid =>
        match wantStr tmpresult "app_auth_token" with
        | none => .panic w
        | some tok =>
          let auth : Auth := { getToken mchid ALIPAY w with Token := tok }
          if auth.ID ≠ "" then
            .ok (some auth, {}, (updateToken E auth.MchID ALIPAY auth w).1)
              (updateToken E auth.MchID ALIPAY auth w).2
          else
            let auth : Auth :=
              { auth with ID := (randomTimeString E w).1, MchID := mchid, From := ALIPAY }
            .ok (some auth, {}, (saveToken E auth (randomTimeString E w).2).1)
              (saveToken E auth (randomTimeString E w).2).2
    | _ => .panic w

/-- The last statement of Auth: `if err != nil { e.Code = SysErrDB; e.Msg = err.Error() }`. -/
def authJudge (E : Env) (e : Error) (err : Err) : Error :=
  match err with
  | some msg => { Code := E.SysErrDB, Msg := msg }
  | none => e

/-- The method `A.Auth(code)`; its request has no callback. -/
def AliPay.Auth (E : Env) (code : String) (w : World) : Outcome (Option Auth × Error) :=
  let (sp, w1) := authParams E code w
  (AliPay.Request E (⟨w1.A.url, sp, "alipay_open_auth_token_app_response", none⟩ :
      requestSimple Unit) () w1).bind (fun r w2 =>
    (authExchange E r.1 r.2.1 w2).bind (fun x w3 =>
      .ok (x.1, authJudge E x.2.1 x.2.2) w3))

/-- A gateway that refuses the authorization code: the payload `40004` with the
sub-code `ACQ.TRADE_NOT_EXIST`, a key of `aliErrMap`. -/
def refusingGateway : Nat → Body := fun _ =>
  .json [("alipay_open_auth_token_app_response", .obj [("code", .str "40004"),
    ("sub_code", .str "ACQ.TRADE_NOT_EXIST")])]

/-- A gateway that accepts every payment at once (trade number `T2`) and reports
every trade paid. -/
def directGateway : Nat → Body := fun _ =>
  .json [("alipay_trade_pay_response", .obj [("code", .str "10000"), ("trade_no", .str "T2")]),
    ("alipay_trade_query_response", .obj paidPayload)]

/-! ## Theorems -/

/-! ### Resolving the Auth -/

theorem token_world (E : Env) (u m : String) (w : World) :
    (AliPay.token E u m w).2.sent = w.sent ∧ (AliPay.token E u m w).2.writes = w.writes ∧
    (AliPay.token E u m w).2.trades = w.trades ∧ (AliPay.token E u m w).2.refunds = w.refunds := by
  unfold AliPay.token
  split <;> simp [World.setAuth]

/-- C1: when the Auth resolved for BarPay, Refund, Cancel or TradeInfo is not in
status `AuthStatusSucc`, the workflow returns an Error with code `AuthErr`, and
the wire log, the write log and the ledger are what they were: nothing was sent
and nothing was saved or updated. -/
theorem C1_auth_error (E : Env) (fuel : Nat) (c : Call) (w : World)
    (h : (AliPay.token E c.UserID c.MchID w).1.Status ≠ E.AuthStatusSucc) :
    ∃ e w', c.run E fuel w = .ok e w' ∧ e.Code = E.AuthErr ∧ w'.sent = w.sent ∧
      w'.writes = w.writes ∧ w'.trades = w.trades ∧ w'.refunds = w.refunds := by
  obtain ⟨h1, h2, h3, h4⟩ := token_world E c.UserID c.MchID w
  cases c <;>
    simp only [Call.UserID, Call.MchID] at h h1 h2 h3 h4 <;>
    simp [Call.run, AliPay.BarPay, AliPay.Refund, AliPay.Cancel, AliPay.TradeInfo,
      Outcome.bind, h] <;>
    exact ⟨_, _, ⟨rfl, rfl⟩, rfl, h1, h2, h3, h4⟩

/-- C1 at a concrete input: a refund for a user whose Auth is unverified. -/
theorem C1_auth_error_witness :
    ∃ e w', (Call.refund { UserID := "u1", SourceID := "o1" }).run
        (demoEnv deadGateway demoClock) 3 demoWorld = .ok e w' ∧
      e.Code = (demoEnv deadGateway demoClock).AuthErr ∧ w'.sent = demoWorld.sent ∧
      w'.writes = demoWorld.writes ∧ w'.trades = demoWorld.trades ∧
      w'.refunds = demoWorld.refunds :=
  C1_auth_error (demoEnv deadGateway demoClock) 3 (.refund { UserID := "u1", SourceID := "o1" })
    demoWorld (by decide)

/-! ### The response classifier -/

/-- C3, as stated, fails: a payload whose `code` is the string `10000` and whose
`sub_code` is not a string makes `errorCheck` panic on `v.(string)`, so it returns
neither a nil error nor the outcome `nextStop`. -/
theorem C3_counterexample :
    List.lookup "code" [("code", JVal.str "10000"), ("sub_code", JVal.other)]
        = some (JVal.str "10000") ∧
      AliPay.errorCheck [("code", JVal.str "10000"), ("sub_code", JVal.other)] = none ∧
      AliPay.errorCheck [("code", JVal.str "10000"), ("sub_code", JVal.other)]
        ≠ some (Next.nextStop, none) := by
  decide

/-- C3, amended: for every decoded payload whose `code` is a string and whose
`sub_code` is absent or a string, `errorCheck` returns; the error is nil exactly
when the code is `10000`; the outcome is `nextRetry` for `20000`,
`nextWaitRetry` for `10003`, `nextWaitAuth` for `20001` and `nextStop` for every
other code; and every non-nil error carries the message `code ++ sub_code`, the
key under which the workflows consult `aliErrMap`. -/
theorem C3_errorCheck (data : JObj) (code : String)
    (hc : data.lookup "code" = some (.str code))
    (hs : data.lookup "sub_code" = none ∨ ∃ s, data.lookup "sub_code" = some (.str s)) :
    ∃ next err, AliPay.errorCheck data = some (next, err) ∧
      (err = none ↔ code = "10000") ∧
      (code = "10000" → next = .nextStop) ∧
      (code = "20000" → next = .nextRetry) ∧
      (code = "10003" → next = .nextWaitRetry) ∧
      (code = "20001" → next = .nextWaitAuth) ∧
      (code ≠ "20000" → code ≠ "10003" → code ≠ "20001" → next = .nextStop) ∧
      (code ≠ "10000" → err = some (code ++ subCodeOf data)) ∧
      (∀ (E : Env) (dflt : Int) (msg : String), err = some msg →
        errCode E msg dflt = (aliErrMap E (code ++ subCodeOf data)).getD dflt) := by
  have hsub : ∃ sub, (match data.lookup "sub_code" with
        | none => some ""
        | some (.str s) => some s
        | some .other => none) = some sub ∧ subCodeOf data = sub := by
    rcases hs with h | ⟨s, h⟩
    · exact ⟨"", by simp [h, subCodeOf]⟩
    · exact ⟨s, by simp [h, subCodeOf]⟩
  obtain ⟨sub, hsub1, hsub2⟩ := hsub
  unfold AliPay.errorCheck
  simp only [hc, hsub1, hsub2]
  by_cases h1 : code = "10000"
  · subst h1
    refine ⟨.nextStop, none, by simp, by simp, by simp, by decide, by decide, by decide,
      by simp, by simp, by simp⟩
  by_cases h2 : code = "20001"
  · subst h2
    refine ⟨.nextWaitAuth, some ("20001" ++ sub), by simp [newError], by simp, by decide,
      by decide, by decide, by simp, by simp, by simp, ?_⟩
    intro E dflt msg hm
    simp only [Option.some.injEq] at hm
    subst hm
    unfold errCode
    cases aliErrMap E ("20001" ++ sub) <;> rfl
  by_cases h3 : code = "20000"
  · subst h3
    refine ⟨.nextRetry, some ("20000" ++ sub), by simp [newError], by simp, by decide,
      by simp, by decide, by decide, by simp, by simp, ?_⟩
    intro E dflt msg hm
    simp only [Option.some.injEq] at hm
    subst hm
    unfold errCode
    cases aliErrMap E ("20000" ++ sub) <;> rfl
  by_cases h4 : code = "10003"
  · subst h4
    refine ⟨.nextWaitRetry, some ("10003" ++ sub), by simp [newError], by simp, by decide,
      by decide, by simp, by decide, by simp, by simp, ?_⟩
    intro E dflt msg hm
    simp only [Option.some.injEq] at hm
    subst hm
    unfold errCode
    cases aliErrMap E ("10003" ++ sub) <;> rfl
  refine ⟨.nextStop, some (code ++ sub), by simp [newError, h1, h2, h3, h4], by simp [h1],
    by simp, by simp [h3], by simp [h4], by simp [h2], by simp, by simp, ?_⟩
  intro E dflt msg hm
  simp only [Option.some.injEq] at hm
  subst hm
  unfold errCode
  cases aliErrMap E (code ++ sub) <;> rfl

/-- C3 (amended) at a concrete input: the payload `40004` / `ACQ.TRADE_NOT_EXIST`. -/
theorem C3_errorCheck_witness :
    ∃ next err,
      AliPay.errorCheck [("code", .str "40004"), ("sub_code", .str "ACQ.TRADE_NOT_EXIST")]
        = some (next, err) ∧
      (err = none ↔ "40004" = "10000") ∧
      ("40004" = "10000" → next = .nextStop) ∧
      ("40004" = "20000" → next = .nextRetry) ∧
      ("40004" = "10003" → next = .nextWaitRetry) ∧
      ("40004" = "20001" → next = .nextWaitAuth) ∧
      ("40004" ≠ "20000" → "40004" ≠ "10003" → "40004" ≠ "20001" → next = .nextStop) ∧
      ("40004" ≠ "10000" → err = some ("40004" ++
        subCodeOf [("code", .str "40004"), ("sub_code", .str "ACQ.TRADE_NOT_EXIST")])) ∧
      (∀ (E : Env) (dflt : Int) (msg : String), err = some msg →
        errCode E msg dflt = (aliErrMap E ("40004" ++
          subCodeOf [("code", .str "40004"), ("sub_code", .str "ACQ.TRADE_NOT_EXIST")])).getD dflt) :=
  C3_errorCheck [("code", .str "40004"), ("sub_code", .str "ACQ.TRADE_NOT_EXIST")] "40004"
    (by decide) (Or.inr ⟨"ACQ.TRADE_NOT_EXIST", by decide⟩)

/-! ### The cached Auth -/

/-- C10, as stated, fails: on a fresh client, once an operation for user `u1` has
resolved the sub-merchant's unverified Auth, resolving with an empty user returns
that same Auth, whose merchant is not the service merchant and whose status is
not `AuthStatusSucc`. -/
theorem C10_counterexample :
    demoWorld.A.rs.auth = none ∧
    (AliPay.token (demoEnv deadGateway demoClock) "" "m1"
        (AliPay.token (demoEnv deadGateway demoClock) "u1" "m1" demoWorld).2).1.MchID
      ≠ demoWorld.A.serviceid ∧
    (AliPay.token (demoEnv deadGateway demoClock) "" "m1"
        (AliPay.token (demoEnv deadGateway demoClock) "u1" "m1" demoWorld).2).1.Status
      ≠ (demoEnv deadGateway demoClock).AuthStatusSucc := by
  decide

/-- C10, amended: on a client with no Auth cached, resolving with an empty user
returns (and caches) an Auth in status `AuthStatusSucc` whose merchant is the
configured service merchant, for every merchant argument; on a client with an
Auth cached, resolving returns the cached Auth, for every user and merchant. -/
theorem C10_token (E : Env) (mchid : String) (w : World) :
    (w.A.rs.auth = none →
      (AliPay.token E "" mchid w).1.Status = E.AuthStatusSucc ∧
      (AliPay.token E "" mchid w).1.MchID = w.A.serviceid ∧
      (AliPay.token E "" mchid w).2.A.rs.auth = some (AliPay.token E "" mchid w).1) ∧
    (∀ a userid, w.A.rs.auth = some a →
      AliPay.token E userid mchid w = (a, w)) := by
  constructor
  · intro h
    simp [AliPay.token, h, World.setAuth]
  · intro a userid h
    simp [AliPay.token, h]

/-- C10 (amended) at concrete inputs: the fresh client, and the client after user
`u1` was resolved. -/
theorem C10_token_witness :
    ((AliPay.token (demoEnv deadGateway demoClock) "" "m1" demoWorld).1.Status = 1 ∧
      (AliPay.token (demoEnv deadGateway demoClock) "" "m1" demoWorld).1.MchID = "2088") ∧
    AliPay.token (demoEnv deadGateway demoClock) "" "m1"
        (AliPay.token (demoEnv deadGateway demoClock) "u1" "m1" demoWorld).2
      = ((demoEnv deadGateway demoClock).token "u1" "m1",
         (AliPay.token (demoEnv deadGateway demoClock) "u1" "m1" demoWorld).2) :=
  ⟨⟨((C10_token (demoEnv deadGateway demoClock) "m1" demoWorld).1 rfl).1,
    ((C10_token (demoEnv deadGateway demoClock) "m1" demoWorld).1 rfl).2.1⟩,
   (C10_token (demoEnv deadGateway demoClock) "m1"
      (AliPay.token (demoEnv deadGateway demoClock) "u1" "m1" demoWorld).2).2 _ "" rfl⟩

/-! ### Footprints -/

theorem frame_refl {P : Wire → Prop} {Q : Write → Prop} {T : List Trade → List Trade → Prop}
    (hT : Preorder2 T) (w : World) : Frame P Q T w w :=
  ⟨rfl, rfl, rfl, fun _ => rfl, fun _ => rfl, rfl, rfl, le_refl _,
    ⟨[], by simp⟩, ⟨[], by simp⟩, hT.refl _⟩

theorem frame_trans {P : Wire → Prop} {Q : Write → Prop} {T : List Trade → List Trade → Prop}
    (hT : Preorder2 T) {w1 w2 w3 : World} (h12 : Frame P Q T w1 w2) (h23 : Frame P Q T w2 w3) :
    Frame P Q T w1 w3 := by
  refine ⟨h23.appid.trans h12.appid, h23.url.trans h12.url, h23.serviceid.trans h12.serviceid,
    ?_, ?_, h23.refunds.trans h12.refunds, h23.idCtr.trans h12.idCtr,
    le_trans h12.ticks h23.ticks, ?_, ?_, hT.trans _ _ _ h12.trades h23.trades⟩
  · intro h
    have h2 := h12.auth h
    rw [h23.auth (by rw [h2]; exact h), h2]
  · intro h
    have h2 := h12.t h
    rw [h23.t (by rw [h2]; exact h), h2]
  · obtain ⟨n1, e1, p1⟩ := h12.sent
    obtain ⟨n2, e2, p2⟩ := h23.sent
    refine ⟨n1 ++ n2, by rw [e2, e1, List.append_assoc], ?_⟩
    intro r hr
    rcases List.mem_append.1 hr with h | h
    · exact p1 r h
    · exact p2 r h
  · obtain ⟨n1, e1, p1⟩ := h12.writes
    obtain ⟨n2, e2, p2⟩ := h23.writes
    refine ⟨n1 ++ n2, by rw [e2, e1, List.append_assoc], ?_⟩
    intro r hr
    rcases List.mem_append.1 hr with h | h
    · exact p1 r h
    · exact p2 r h

theorem frame_mono {P P' : Wire → Prop} {Q Q' : Write → Prop}
    {T T' : List Trade → List Trade → Prop} {w w' : World}
    (h : Frame P Q T w w') (hP : ∀ r, P r → P' r) (hQ : ∀ x, Q x → Q' x)
    (hT : ∀ a b, T a b → T' a b) : Frame P' Q' T' w w' := by
  refine ⟨h.appid, h.url, h.serviceid, h.auth, h.t, h.refunds, h.idCtr, h.ticks, ?_, ?_,
    hT _ _ h.trades⟩
  · obtain ⟨n, e, p⟩ := h.sent
    exact ⟨n, e, fun r hr => hP r (p r hr)⟩
  · obtain ⟨n, e, p⟩ := h.writes
    exact ⟨n, e, fun r hr => hQ r (p r hr)⟩

theorem eq_preorder2 : Preorder2 (fun a b : List Trade => b = a) :=
  ⟨fun _ => rfl, fun _ _ _ h1 h2 => h2.trans h1⟩

theorem frame_getNowSec {P : Wire → Prop} {Q : Write → Prop}
    {T : List Trade → List Trade → Prop} (hT : Preorder2 T) (E : Env) (w : World) :
    Frame P Q T w (getNowSec E w).2 :=
  ⟨rfl, rfl, rfl, fun _ => rfl, fun _ => rfl, rfl, rfl, Nat.le_succ _,
    ⟨[], by simp [getNowSec]⟩, ⟨[], by simp [getNowSec]⟩, hT.refl _⟩

theorem frame_sleep {P : Wire → Prop} {Q : Write → Prop}
    {T : List Trade → List Trade → Prop} (hT : Preorder2 T) (n : Nat) (w : World) :
    Frame P Q T w (sleep n w) :=
  ⟨rfl, rfl, rfl, fun _ => rfl, fun _ => rfl, rfl, rfl, le_refl _,
    ⟨[], by simp [sleep]⟩, ⟨[], by simp [sleep]⟩, hT.refl _⟩

theorem frame_setT {P : Wire → Prop} {Q : Write → Prop}
    {T : List Trade → List Trade → Prop} (hT : Preorder2 T) (w : World) (now : Int)
    (h0 : w.A.rs.t = 0) : Frame P Q T w (w.setT now) :=
  ⟨rfl, rfl, rfl, fun _ => rfl, fun h => absurd h0 h, rfl, rfl, le_refl _,
    ⟨[], by simp [World.setT]⟩, ⟨[], by simp [World.setT]⟩, hT.refl _⟩

theorem frame_setAuth {P : Wire → Prop} {Q : Write → Prop}
    {T : List Trade → List Trade → Prop} (hT : Preorder2 T) (w : World) (a : Auth)
    (h0 : w.A.rs.auth = none) : Frame P Q T w (w.setAuth a) :=
  ⟨rfl, rfl, rfl, fun h => absurd h0 h, fun _ => rfl, rfl, rfl, le_refl _,
    ⟨[], by simp [World.setAuth]⟩, ⟨[], by simp [World.setAuth]⟩, hT.refl _⟩

theorem frame_token {P : Wire → Prop} {Q : Write → Prop}
    {T : List Trade → List Trade → Prop} (hT : Preorder2 T) (E : Env) (u m : String)
    (w : World) : Frame P Q T w (AliPay.token E u m w).2 := by
  unfold AliPay.token
  split
  · exact frame_refl hT w
  · next h => exact frame_setAuth hT w _ h

theorem token_cached (E : Env) (u m : String) (w : World) :
    (AliPay.token E u m w).2.A.rs.auth = some (AliPay.token E u m w).1 := by
  unfold AliPay.token
  split
  · next a h => exact h
  · rfl

theorem frame_send {P : Wire → Prop} {Q : Write → Prop}
    {T : List Trade → List Trade → Prop} (hT : Preorder2 T) (w : World) (r : Wire)
    (hP : P r) : Frame P Q T w { w with sent := w.sent ++ [r] } :=
  ⟨rfl, rfl, rfl, fun _ => rfl, fun _ => rfl, rfl, rfl, le_refl _,
    ⟨[r], rfl, by simpa using hP⟩, ⟨[], by simp⟩, hT.refl _⟩

theorem request_world (E : Env) (url : String) (get : Params) (relKey : String) (w : World) :
    (AliPay.request E url get relKey w).world = { w with sent := w.sent ++ [⟨url, get⟩] } := by
  unfold AliPay.request
  simp only []
  split
  · rfl
  · rfl
  · split
    · rfl
    · rfl
    · split <;> rfl

theorem Outcome.world_of_ok {α : Type} {o : Outcome α} {a : α} {w : World}
    (h : o = .ok a w) : o.world = w := by
  subst h; rfl

theorem frame_bind {P : Wire → Prop} {Q : Write → Prop}
    {T : List Trade → List Trade → Prop} (hT : Preorder2 T) {α β : Type} {w : World}
    {o : Outcome α} {f : α → World → Outcome β} (h1 : Frame P Q T w o.world)
    (h2 : ∀ a w1, o = .ok a w1 → Frame P Q T w1 (f a w1).world) :
    Frame P Q T w (o.bind f).world := by
  cases o with
  | ok a w1 => exact frame_trans hT h1 (h2 a w1 rfl)
  | panic w1 => exact h1
  | outOfFuel w1 => exact h1

theorem frame_startClock {P : Wire → Prop} {Q : Write → Prop}
    {T : List Trade → List Trade → Prop} (hT : Preorder2 T) (E : Env) (w : World) :
    Frame P Q T w (startClock E w) := by
  unfold startClock
  split
  · next h0 => exact frame_trans hT (frame_getNowSec hT E w) (frame_setT hT _ _ h0)
  · exact frame_refl hT w

/-- The footprint of `Request`: the head only reads the clock and may start the
deadline clock, at most the request `d` is sent, and the rest is the callback's. -/
theorem Request_frame {P : Wire → Prop} {Q : Write → Prop}
    {T : List Trade → List Trade → Prop} (hT : Preorder2 T) (E : Env) {L : Type}
    (d : requestSimple L) (l : L) (w : World) (hP : P ⟨d.url, d.get⟩)
    (hfs : ∀ fs, d.fs = some fs → ∀ result next err l1 w3, Frame P Q T w w3 →
      Frame P Q T w3 (fs result next err l1 w3).world) :
    Frame P Q T w (AliPay.Request E d l w).world := by
  have h2 : Frame P Q T w (getNowSec E (startClock E w)).2 :=
    frame_trans hT (frame_startClock hT E w) (frame_getNowSec hT E (startClock E w))
  have h3 := frame_trans hT h2 (frame_send hT _ ⟨d.url, d.get⟩ hP)
  rw [← request_world E d.url d.get d.relKey] at h3
  unfold AliPay.Request
  simp only []
  split
  · exact h2
  · split
    · next result next err w3 heq =>
      rw [Outcome.world_of_ok heq] at h3
      split
      · next m fs hd => exact frame_trans hT h3 (hfs fs hd _ _ _ _ _ h3)
      · exact h3
    · next w3 heq => rw [heq] at h3; exact h3
    · next w3 heq => rw [heq] at h3; exact h3

/-! ### Parameter maps -/

theorem lookup_mapSet (m : Params) (k v k' : String) :
    (mapSet m k v).lookup k' = if k' = k then some v else m.lookup k' := by
  unfold mapSet
  induction m with
  | nil =>
    by_cases h : k' = k
    · subst h
      simp [List.lookup]
    · have hb : (k' == k) = false := by simpa using h
      simp [List.lookup, hb, h]
  | cons p ps ih =>
    obtain ⟨a, b⟩ := p
    by_cases ha : a = k
    · subst ha
      simp only [List.filter, ne_eq, not_true_eq_false, decide_False]
      rw [ih]
      by_cases hk : k' = a
      · simp [hk]
      · have hb : (k' == a) = false := by simpa using hk
        simp [List.lookup, hb, hk]
    · simp only [List.filter, ne_eq, ha, not_false_eq_true, decide_True, List.cons_append,
        List.lookup]
      by_cases hka : k' = a
      · subst hka
        simp [ha]
      · have hb : (k' == a) = false := by simpa using hka
        simp only [hb]
        exact ih

theorem sysParams_world (E : Env) (w : World) :
    (AliPay.sysParams E w).2 = (getNowSec E w).2 := rfl

theorem sysParams_lookup (E : Env) (w : World) :
    (AliPay.sysParams E w).1.lookup "app_auth_token" = none ∧
    (AliPay.sysParams E w).1.lookup "method" = none := by
  constructor <;> simp [AliPay.sysParams, getNowSec, List.lookup]

theorem tradeInfoParams_wire (E : Env) (auth : Auth) (req : Trade) (w : World) (url : String) :
    (tradeInfoParams E auth req w).2 = (getNowSec E w).2 ∧
    IsWire auth w.A.serviceid "alipay.trade.query" ⟨url, (tradeInfoParams E auth req w).1⟩ := by
  obtain ⟨h1, h2⟩ := sysParams_lookup E w
  refine ⟨rfl, ?_, ?_⟩
  · unfold WireOK tradeInfoParams
    simp only [sysParams_world]
    by_cases h : auth.MchID = w.A.serviceid
    · simp [lookup_mapSet, h, h1, getNowSec]
    · simp [lookup_mapSet, h, h1, getNowSec]
  · unfold tradeInfoParams
    simp only [sysParams_world]
    by_cases h : auth.MchID = w.A.serviceid
    · simp [lookup_mapSet, h, getNowSec]
    · simp [lookup_mapSet, h, getNowSec]

theorem cancelParams_wire (E : Env) (auth : Auth) (req : Trade) (w : World) (url : String) :
    (cancelParams E auth req w).2 = (getNowSec E w).2 ∧
    IsWire auth w.A.serviceid "alipay.trade.cancel" ⟨url, (cancelParams E auth req w).1⟩ := by
  obtain ⟨h1, h2⟩ := sysParams_lookup E w
  refine ⟨rfl, ?_, ?_⟩
  · unfold WireOK cancelParams
    simp only [sysParams_world]
    by_cases h : auth.MchID = w.A.serviceid
    · simp [lookup_mapSet, h, h1, getNowSec]
    · simp [lookup_mapSet, h, h1, getNowSec]
  · unfold cancelParams
    simp only [sysParams_world]
    by_cases h : auth.MchID = w.A.serviceid
    · simp [lookup_mapSet, h, getNowSec]
    · simp [lookup_mapSet, h, getNowSec]

theorem refundParams_wire (E : Env) (auth : Auth) (req : Refund) (w : World) (url : String) :
    (refundParams E auth req w).2 = (getNowSec E w).2 ∧
    IsWire auth w.A.serviceid "alipay.trade.refund" ⟨url, (refundParams E auth req w).1⟩ := by
  obtain ⟨h1, h2⟩ := sysParams_lookup E w
  refine ⟨rfl, ?_, ?_⟩
  · unfold WireOK refundParams
    simp only [sysParams_world]
    by_cases h : auth.MchID = w.A.serviceid
    · simp [lookup_mapSet, h, h1, getNowSec]
    · simp [lookup_mapSet, h, h1, getNowSec]
  · unfold refundParams
    simp only [sysParams_world]
    by_cases h : auth.MchID = w.A.serviceid
    · simp [lookup_mapSet, h, getNowSec]
    · simp [lookup_mapSet, h, getNowSec]

theorem barPayParams_wire (E : Env) (auth : Auth) (req : BarPay) (w : World) (url : String) :
    (barPayParams E auth req w).2 = (getNowSec E w).2 ∧
    IsWire auth w.A.serviceid "alipay.trade.pay" ⟨url, (barPayParams E auth req w).1⟩ := by
  obtain ⟨h1, h2⟩ := sysParams_lookup E w
  refine ⟨rfl, ?_, ?_⟩
  · unfold WireOK barPayParams
    simp only [sysParams_world]
    by_cases h : auth.MchID = w.A.serviceid
    · simp [lookup_mapSet, h, h1, getNowSec]
    · simp [lookup_mapSet, h, h1, getNowSec]
  · unfold barPayParams
    simp only [sysParams_world]
    by_cases h : auth.MchID = w.A.serviceid
    · simp [lookup_mapSet, h, getNowSec]
    · simp [lookup_mapSet, h, getNowSec]

/-! ### The retrying request -/

theorem retryFs_frame {P : Wire → Prop} {Q : Write → Prop}
    {T : List Trade → List Trade → Prop} (hT : Preorder2 T) (E : Env) (url : String)
    (get : Params) (relKey : String) (hP : P ⟨url, get⟩) (fuel : Nat) :
    ∀ result next err l w,
      Frame P Q T w (retryFs E url get relKey fuel result next err l w).world := by
  induction fuel with
  | zero =>
    intro result next err l w
    cases next <;> first
      | exact frame_sleep hT 1 w
      | exact frame_refl hT w
  | succ n ih =>
    intro result next err l w
    have hr : Frame P Q T w
        (AliPay.Request E ⟨url, get, relKey, some (retryFs E url get relKey n)⟩ l
          (sleep 1 w)).world := by
      refine frame_trans hT (frame_sleep hT 1 w) (Request_frame hT E _ l _ hP ?_)
      intro fs hfs result next err l1 w3 _
      simp only [Option.some.injEq] at hfs
      subst hfs
      exact ih _ _ _ _ _
    cases next <;> first
      | exact hr
      | exact frame_refl hT w

theorem Request_retry_frame {P : Wire → Prop} {Q : Write → Prop}
    {T : List Trade → List Trade → Prop} (hT : Preorder2 T) (E : Env) (url : String)
    (get : Params) (relKey : String) (hP : P ⟨url, get⟩) (fuel : Nat) (w : World) :
    Frame P Q T w (AliPay.Request E (retryRq E url get relKey fuel) () w).world := by
  refine Request_frame hT E _ () w hP ?_
  intro fs hfs result next err l1 w3 _
  simp only [retryRq, Option.some.injEq] at hfs
  subst hfs
  exact retryFs_frame hT E url get relKey hP fuel _ _ _ _ _

/-! ### The ledger -/

theorem getTrade_congr (q : TradeFilter) {w w' : World} (h : w'.trades = w.trades) :
    getTrade q w' = getTrade q w := by
  unfold getTrade
  rw [h]

theorem getTrade_found (q : TradeFilter) (w : World) (h : (getTrade q w).ID ≠ "") :
    getTrade q w ∈ w.trades ∧ q.matches (getTrade q w) = true := by
  unfold getTrade at h ⊢
  cases hf : w.trades.find? q.matches with
  | none => simp [hf] at h
  | some t =>
    simp only [hf]
    exact ⟨List.mem_of_find?_eq_some hf, List.find?_some hf⟩

theorem getTrade_none (q : TradeFilter) (w : World) (h : (getTrade q w).ID = "")
    (hid : ∀ t ∈ w.trades, t.ID ≠ "") : ∀ t ∈ w.trades, q.matches t = false := by
  unfold getTrade at h
  cases hf : w.trades.find? q.matches with
  | none =>
    intro t ht
    have := List.find?_eq_none.1 hf t ht
    simpa using this
  | some t =>
    simp only [hf] at h
    exact absurd h (hid t (List.mem_of_find?_eq_some hf))

theorem frame_updateTrade {P : Wire → Prop} {Q : Write → Prop}
    {T : List Trade → List Trade → Prop} (hT : Preorder2 T) (E : Env) (q : TradeFilter)
    (t : Trade) (w : World) (hQ : Q (.updateTrade q t))
    (hstep : T w.trades (replaceFirst q.matches t w.trades)) :
    Frame P Q T w (updateTrade E q t w).2 := by
  unfold updateTrade
  split
  · exact ⟨rfl, rfl, rfl, fun _ => rfl, fun _ => rfl, rfl, rfl, le_refl _,
      ⟨[], by simp⟩, ⟨[.updateTrade q t], rfl, by simpa using hQ⟩, hT.refl _⟩
  · exact ⟨rfl, rfl, rfl, fun _ => rfl, fun _ => rfl, rfl, rfl, le_refl _,
      ⟨[], by simp⟩, ⟨[.updateTrade q t], rfl, by simpa using hQ⟩, hstep⟩

theorem withPayDate_keeps (E : Env) (d : JObj) (t t1 : Trade) (h : withPayDate E d t = some t1) :
    t1.ID = t.ID ∧ t1.OutTradeID = t.OutTradeID ∧ t1.From = t.From ∧ t1.Create = t.Create ∧
    t1.Status = t.Status ∧ t1.TradeID = t.TradeID := by
  unfold withPayDate at h
  split at h
  · cases h; exact ⟨rfl, rfl, rfl, rfl, rfl, rfl⟩
  · cases h; exact ⟨rfl, rfl, rfl, rfl, rfl, rfl⟩
  · cases h

/-- The footprint of the reconciliation step of TradeInfo: at most one write, the
update of the row selected by the local internal ID. -/
theorem tradeInfoSync_frame {P : Wire → Prop} {Q : Write → Prop}
    {T : List Trade → List Trade → Prop} (hT : Preorder2 T) (E : Env) (req trade : Trade)
    (info : Info) (err : Err) (w : World)
    (hQ : ∀ q t, Q (.updateTrade q t))
    (hU : ∀ t1 : Trade, t1.ID = trade.ID → t1.ID ≠ "" → t1.OutTradeID = req.OutTradeID →
      t1.From = ALIPAY →
      T w.trades (replaceFirst (TradeFilter.matches { id := some t1.ID }) t1 w.trades)) :
    Frame P Q T w (tradeInfoSync E req trade info err w).world := by
  unfold tradeInfoSync
  split
  · exact frame_refl hT w
  · split
    · split
      · exact frame_refl hT w
      · split
        · exact frame_refl hT w
        · simp only []
          have hn : Frame P Q T w (getNowSec E w).2 := frame_getNowSec hT E w
          split
          · exact hn
          · split
            · exact hn
            · split
              · exact hn
              · next t1 hpaid =>
                have hw : (getNowSec E w).2.trades = w.trades := rfl
                split
                · exact hn
                · next hid =>
                  have h1 : t1.ID = trade.ID ∧ t1.OutTradeID = req.OutTradeID ∧
                      t1.From = ALIPAY := by
                    have := withPayDate_keeps E _ _ _ hpaid
                    exact ⟨this.1, this.2.1, this.2.2.1⟩
                  have hu := frame_updateTrade (P := P) hT E { id := some t1.ID } t1
                    (getNowSec E w).2 (hQ _ _) (by rw [hw]; exact hU t1 h1.1 hid h1.2.1 h1.2.2)
                  have := frame_trans hT hn hu
                  split <;> exact this
    · exact frame_refl hT w

/-- The footprint of TradeInfo: it resolves the Auth, sends only query requests that
obey the delegation rule, and writes at most the update of the local row. -/
theorem TradeInfo_frame {Q : Write → Prop} {T : List Trade → List Trade → Prop}
    (hT : Preorder2 T) (E : Env) (fuel : Nat) (req : Trade) (sync : Bool) (w : World)
    (hQ : ∀ q t, Q (.updateTrade q t))
    (hU : ∀ t0 t1 : Trade, t0 ∈ w.trades → (tradeInfoFilter req).matches t0 = true →
      t1.ID = t0.ID → t1.OutTradeID = req.OutTradeID → t1.From = ALIPAY →
      T w.trades (replaceFirst (TradeFilter.matches { id := some t1.ID }) t1 w.trades)) :
    Frame (IsWire (AliPay.token E req.UserID req.MchID w).1 w.A.serviceid "alipay.trade.query")
      Q T w (AliPay.TradeInfo E fuel req sync w).world := by
  have h1 := frame_token
    (P := IsWire (AliPay.token E req.UserID req.MchID w).1 w.A.serviceid "alipay.trade.query")
    (Q := Q) hT E req.UserID req.MchID w
  have htw := (token_world E req.UserID req.MchID w).2.2.1
  unfold AliPay.TradeInfo
  simp only []
  generalize AliPay.token E req.UserID req.MchID w = tk at h1 htw ⊢
  obtain ⟨a, w1⟩ := tk
  simp only [] at h1 htw ⊢
  split
  · exact h1
  · split
    · exact h1
    · obtain ⟨hw2, hwire⟩ := tradeInfoParams_wire E a req w1 (tradeInfoParams E a req w1).2.A.url
      rw [h1.serviceid] at hwire
      have h2 : Frame (IsWire a w.A.serviceid "alipay.trade.query") Q T w
          (tradeInfoParams E a req w1).2 := by
        rw [hw2]
        exact frame_trans hT h1 (frame_getNowSec hT E _)
      have hw2t : (tradeInfoParams E a req w1).2.trades = w.trades := by
        rw [hw2]; exact htw
      generalize tradeInfoParams E a req w1 = tp at h2 hwire hw2t ⊢
      obtain ⟨sp, w2⟩ := tp
      simp only [] at h2 hwire hw2t ⊢
      refine frame_trans hT h2 (frame_bind hT ?_ ?_)
      · exact Request_retry_frame hT E _ _ _ hwire fuel _
      · intro r w3 hr
        have h3 : Frame (IsWire a w.A.serviceid "alipay.trade.query") (fun _ => False)
            (fun a b : List Trade => b = a) w2 w3 := by
          have := Request_retry_frame (Q := fun _ => False) eq_preorder2 E _ _
            "alipay_trade_query_response" hwire fuel w2
          rw [Outcome.world_of_ok hr] at this
          exact this
        have htr : w3.trades = w.trades := by
          rw [h3.trades, hw2t]
        have hg : getTrade (tradeInfoFilter req) w1 = getTrade (tradeInfoFilter req) w :=
          getTrade_congr _ htw
        refine tradeInfoSync_frame hT E req _ r.1 r.2.1 w3 hQ ?_
        intro t1 e1 e2 e3 e4
        rw [htr]
        rw [hg] at e1
        have hf := getTrade_found (tradeInfoFilter req) w (by rw [← e1]; exact e2)
        exact hU _ t1 hf.1 hf.2 e1 e3 e4

/-! ### Cancel and the callback of BarPay -/

theorem Ctx.step {P : Wire → Prop} {Q : Write → Prop} {T : List Trade → List Trade → Prop}
    {a : Auth} {s : String} {w w' : World} (h : Ctx a s w) (hf : Frame P Q T w w') :
    Ctx a s w' :=
  ⟨by rw [hf.auth (by rw [h.1]; simp), h.1], by rw [hf.serviceid, h.2]⟩

theorem token_of_ctx (E : Env) (u m : String) {a : Auth} {s : String} {w : World}
    (h : Ctx a s w) : AliPay.token E u m w = (a, w) := by
  unfold AliPay.token
  rw [h.1]

/-- The footprint of Cancel: only cancel requests, no write. -/
theorem Cancel_frame {Q : Write → Prop} {T : List Trade → List Trade → Prop}
    (hT : Preorder2 T) (E : Env) (fuel : Nat) (req : Trade) (w : World) :
    Frame (IsWire (AliPay.token E req.UserID req.MchID w).1 w.A.serviceid "alipay.trade.cancel")
      Q T w (AliPay.Cancel E fuel req w).world := by
  have h1 := frame_token
    (P := IsWire (AliPay.token E req.UserID req.MchID w).1 w.A.serviceid "alipay.trade.cancel")
    (Q := Q) hT E req.UserID req.MchID w
  unfold AliPay.Cancel
  simp only []
  generalize AliPay.token E req.UserID req.MchID w = tk at h1 ⊢
  obtain ⟨a, w1⟩ := tk
  simp only [] at h1 ⊢
  split
  · exact h1
  · obtain ⟨hw2, hwire⟩ := cancelParams_wire E a req w1 (cancelParams E a req w1).2.A.url
    rw [h1.serviceid] at hwire
    have h2 : Frame (IsWire a w.A.serviceid "alipay.trade.cancel") Q T w
        (cancelParams E a req w1).2 := by
      rw [hw2]
      exact frame_trans hT h1 (frame_getNowSec hT E _)
    generalize cancelParams E a req w1 = tp at h2 hwire ⊢
    obtain ⟨sp, w2⟩ := tp
    simp only [] at h2 hwire ⊢
    refine frame_trans hT h2 (frame_bind hT ?_ ?_)
    · exact Request_retry_frame hT E _ _ _ hwire fuel _
    · intro r w3 _
      split <;> exact frame_refl hT w3

/-- The footprint of a sync of the order `out` made under a cached Auth. -/
theorem TradeInfo_frame_ctx {T : List Trade → List Trade → Prop} (hT : Preorder2 T)
    (E : Env) (fuel : Nat) (out : String) (a : Auth) (s : String) (hU : AllowsSync T out)
    (w : World) (hc : Ctx a s w) :
    Frame (WireOK a s) IsUpdate T w
      (AliPay.TradeInfo E fuel { OutTradeID := out } true w).world := by
  have h := TradeInfo_frame (Q := IsUpdate) hT E fuel { OutTradeID := out } true w
    (fun q t => ⟨q, t, rfl⟩) (fun t0 t1 h0 h1 h2 h3 h4 => hU w.trades t0 t1 h0 h1 h2 h3 h4)
  rw [token_of_ctx E _ _ hc, hc.2] at h
  exact frame_mono h (fun r hr => hr.1) (fun _ hx => hx) (fun _ _ ht => ht)

/-- The footprint of the polling loop of BarPay, from the footprint `hTI` of the
syncs it makes; `C` is what is known of the worlds on the way. -/
theorem barPayPoll_frame {P : Wire → Prop} {T : List Trade → List Trade → Prop}
    (hT : Preorder2 T) (E : Env) (req : BarPay) (C : World → Prop)
    (hC : ∀ w w', C w → Frame P IsUpdate T w w' → C w')
    (hTI : ∀ fuel w, C w → Frame P IsUpdate T w
      (AliPay.TradeInfo E fuel { OutTradeID := req.OutTradeID } true w).world)
    (fuel : Nat) : ∀ (l : BarPayLocals) (w : World), C w →
      Frame P IsUpdate T w (barPayPoll E req fuel l w).world := by
  induction fuel with
  | zero =>
    intro l w _
    unfold barPayPoll
    simp only []
    split <;> exact frame_getNowSec hT E w
  | succ n ih =>
    intro l w hc
    unfold barPayPoll
    simp only []
    have h1 : Frame P IsUpdate T w (getNowSec E w).2 := frame_getNowSec hT E w
    split
    · refine frame_trans hT h1 (frame_bind hT ?_ ?_)
      · exact hTI n _ (hC _ _ hc h1)
      · intro r w2 hr
        have h2 := hTI n _ (hC _ _ hc h1)
        rw [Outcome.world_of_ok hr] at h2
        have hc2 : C (sleep 3 w2) :=
          hC _ _ (hC _ _ (hC _ _ hc h1) h2) (frame_sleep hT 3 w2)
        have hs : ∀ l1, Frame P IsUpdate T w2 (barPayPoll E req n l1 (sleep 3 w2)).world :=
          fun l1 => frame_trans hT (frame_sleep hT 3 w2) (ih l1 _ hc2)
        split
        · split
          · exact frame_refl hT w2
          · split
            · exact hs _
            · exact hs _
        · exact hs _
    · exact h1

/-- The footprint of the callback of BarPay. -/
theorem barPayFs_frame {P : Wire → Prop} {T : List Trade → List Trade → Prop}
    (hT : Preorder2 T) (E : Env) (req : BarPay) (C : World → Prop)
    (hC : ∀ w w', C w → Frame P IsUpdate T w w' → C w')
    (hTI : ∀ fuel w, C w → Frame P IsUpdate T w
      (AliPay.TradeInfo E fuel { OutTradeID := req.OutTradeID } true w).world)
    (url : String) (get : Params) (relKey : String) (hP : P ⟨url, get⟩)
    (fuel : Nat) : ∀ (result : Info) (next : Next) (err : Err) (l : BarPayLocals) (w : World),
      C w →
      Frame P IsUpdate T w (barPayFs E req url get relKey fuel result next err l w).world := by
  induction fuel with
  | zero =>
    intro result next err l w _
    cases next <;> first
      | exact frame_sleep hT 1 w
      | exact frame_refl hT w
  | succ n ih =>
    intro result next err l w hc
    have hreq : ∀ (l1 : BarPayLocals) (w1 : World), C w1 →
        Frame P IsUpdate T w1
          (AliPay.Request E ⟨url, get, relKey, some (barPayFs E req url get relKey n)⟩
            l1 w1).world := by
      intro l1 w1 hc1
      refine Request_frame hT E _ l1 w1 hP ?_
      intro fs hfs result next err l2 w3 hf
      simp only [Option.some.injEq] at hfs
      subst hfs
      exact ih _ _ _ _ _ (hC _ _ hc1 hf)
    cases next with
    | netConnErr =>
      exact frame_trans hT (frame_sleep hT 1 w) (hreq l _ (hC _ _ hc (frame_sleep hT 1 w)))
    | nextRetry =>
      unfold barPayFs
      simp only []
      have h2 := hTI n w hc
      refine frame_bind hT h2 ?_
      intro r w1 hr
      rw [Outcome.world_of_ok hr] at h2
      split
      · exact hreq _ _ (hC _ _ hc h2)
      · split
        · exact frame_refl hT w1
        · exact frame_refl hT w1
    | nextWaitRetry =>
      unfold barPayFs
      simp only []
      refine frame_bind hT (barPayPoll_frame hT E req C hC hTI n _ w hc) ?_
      intro l1 w1 _
      exact frame_refl hT w1
    | nextStop => exact frame_refl hT w
    | nextWaitAuth => exact frame_refl hT w

/-- The footprint of the request of BarPay. -/
theorem Request_barPay_frame {P : Wire → Prop} {T : List Trade → List Trade → Prop}
    (hT : Preorder2 T) (E : Env) (req : BarPay) (C : World → Prop)
    (hC : ∀ w w', C w → Frame P IsUpdate T w w' → C w')
    (hTI : ∀ fuel w, C w → Frame P IsUpdate T w
      (AliPay.TradeInfo E fuel { OutTradeID := req.OutTradeID } true w).world)
    (url : String) (get : Params) (relKey : String) (hP : P ⟨url, get⟩)
    (fuel : Nat) (l : BarPayLocals) (w : World) (hc : C w) :
    Frame P IsUpdate T w
      (AliPay.Request E ⟨url, get, relKey, some (barPayFs E req url get relKey fuel)⟩
        l w).world := by
  refine Request_frame hT E _ l w hP ?_
  intro fs hfs result next err l2 w3 hf
  simp only [Option.some.injEq] at hfs
  subst hfs
  exact barPayFs_frame hT E req C hC hTI url get relKey hP fuel _ _ _ _ _ (hC _ _ hc hf)

theorem true_preorder2 : Preorder2 (fun _ _ : List Trade => True) :=
  ⟨fun _ => trivial, fun _ _ _ _ _ => trivial⟩

/-- The footprint of a sync with nothing assumed. -/
theorem TradeInfo_frame_any (E : Env) (fuel : Nat) (req : Trade) (sync : Bool) (w : World) :
    Frame (fun _ => True) IsUpdate (fun _ _ => True) w
      (AliPay.TradeInfo E fuel req sync w).world :=
  frame_mono (TradeInfo_frame (Q := IsUpdate) true_preorder2 E fuel req sync w
      (fun q t => ⟨q, t, rfl⟩) (fun _ _ _ _ _ _ _ => trivial))
    (fun _ _ => trivial) (fun _ hx => hx) (fun _ _ ht => ht)

/-! ### The deadline -/

/-- C4: `Request` sets the start time only when it is zero: a non-zero start time
is the same after the call, whatever the request answers, also when the call
goes on through the retry callback of Refund, Cancel and TradeInfo or through the
callback of BarPay (its resends, syncs and polling rounds), and with no callback
at all; and when the clock reading minus the start time exceeds `maxTimeout`,
the call returns a nil result and the timeout error with nothing added to the
wire log, whatever the callback is. -/
theorem C4_request_deadline (E : Env) (w : World) :
    (w.A.rs.t ≠ 0 → startClock E w = w) ∧
    (w.A.rs.t = 0 → (startClock E w).A.rs.t = E.clock w.ticks) ∧
    (∀ (url : String) (get : Params) (relKey : String) (fuel : Nat), w.A.rs.t ≠ 0 →
      (AliPay.Request E (retryRq E url get relKey fuel) () w).world.A.rs.t = w.A.rs.t) ∧
    (∀ (req : BarPay) (url : String) (get : Params) (relKey : String) (fuel : Nat)
      (l : BarPayLocals), w.A.rs.t ≠ 0 →
      (AliPay.Request E ⟨url, get, relKey, some (barPayFs E req url get relKey fuel)⟩
        l w).world.A.rs.t = w.A.rs.t) ∧
    (∀ (L : Type) (url : String) (get : Params) (relKey : String) (l : L), w.A.rs.t ≠ 0 →
      (AliPay.Request E ⟨url, get, relKey, none⟩ l w).world.A.rs.t = w.A.rs.t) ∧
    (∀ (L : Type) (d : requestSimple L) (l : L),
      E.clock (startClock E w).ticks - (startClock E w).A.rs.t > E.maxTimeout →
      AliPay.Request E d l w
          = .ok (.nil, some ErrHandlerTimeout, l) (getNowSec E (startClock E w)).2 ∧
        (getNowSec E (startClock E w)).2.sent = w.sent) := by
  refine ⟨?_, ?_, ?_, ?_, ?_, ?_⟩
  · intro h
    simp [startClock, h]
  · intro h
    simp [startClock, h, World.setT, getNowSec]
  · intro url get relKey fuel h
    exact (Request_retry_frame (P := fun _ => True) (Q := fun _ => True) true_preorder2 E url
      get relKey trivial fuel w).t h
  · intro req url get relKey fuel l h
    exact (Request_barPay_frame (P := fun _ => True) true_preorder2 E req (fun _ => True)
      (fun _ _ _ _ => trivial)
      (fun fuel w _ => TradeInfo_frame_any E fuel _ true w)
      url get relKey trivial fuel l w trivial).t h
  · intro L url get relKey l h
    exact (Request_frame (P := fun _ => True) (Q := fun _ => True) true_preorder2 E
      ⟨url, get, relKey, none⟩ l w trivial (by intro fs hfs; cases hfs)).t h
  · intro L d l h
    constructor
    · unfold AliPay.Request
      simp only []
      rw [if_pos (by simpa [getNowSec] using h)]
    · unfold startClock
      split <;> simp [getNowSec, World.setT]

/-- C4 at a concrete input: a client whose deadline clock was started at 1000, and
a clock that reads 5000: the start time stays, the request of TradeInfo times
out, and nothing is sent. -/
theorem C4_request_deadline_witness :
    (AliPay.Request (demoEnv deadGateway (fun _ => 5000))
        (retryRq (demoEnv deadGateway (fun _ => 5000)) "https://gw" [] "k" 3) ()
        { demoWorld with A := { demoWorld.A with rs := { t := 1000 } } }).world.A.rs.t = 1000 ∧
    (AliPay.Request (demoEnv deadGateway (fun _ => 5000))
        (retryRq (demoEnv deadGateway (fun _ => 5000)) "https://gw" [] "k" 3) ()
        { demoWorld with A := { demoWorld.A with rs := { t := 1000 } } }).val
      = some (.nil, some ErrHandlerTimeout, ()) ∧
    (AliPay.Request (demoEnv deadGateway (fun _ => 5000))
        (retryRq (demoEnv deadGateway (fun _ => 5000)) "https://gw" [] "k" 3) ()
        { demoWorld with A := { demoWorld.A with rs := { t := 1000 } } }).world.sent = [] := by
  have h := C4_request_deadline (demoEnv deadGateway (fun _ => 5000))
    { demoWorld with A := { demoWorld.A with rs := { t := 1000 } } }
  have h6 := h.2.2.2.2.2 Unit
    (retryRq (demoEnv deadGateway (fun _ => 5000)) "https://gw" [] "k" 3) () (by decide)
  refine ⟨h.2.2.1 "https://gw" [] "k" 3 (by decide), ?_, ?_⟩
  · rw [h6.1]; rfl
  · rw [h6.1]; exact h6.2

/-! ### What the workflows send -/

theorem sends_refl (P : Wire → Prop) (w : World) : Sends P w w := ⟨[], by simp⟩

theorem sends_of_eq {P : Wire → Prop} {w w' : World} (h : w'.sent = w.sent) : Sends P w w' :=
  ⟨[], by simp [h]⟩

theorem sends_trans {P : Wire → Prop} {w1 w2 w3 : World} (h12 : Sends P w1 w2)
    (h23 : Sends P w2 w3) : Sends P w1 w3 := by
  obtain ⟨n1, e1, p1⟩ := h12
  obtain ⟨n2, e2, p2⟩ := h23
  refine ⟨n1 ++ n2, by rw [e2, e1, List.append_assoc], ?_⟩
  intro r hr
  rcases List.mem_append.1 hr with h | h
  · exact p1 r h
  · exact p2 r h

theorem sends_mono {P P' : Wire → Prop} {w w' : World} (h : Sends P w w')
    (hP : ∀ r, P r → P' r) : Sends P' w w' := by
  obtain ⟨n, e, p⟩ := h
  exact ⟨n, e, fun r hr => hP r (p r hr)⟩

theorem sends_bind {P : Wire → Prop} {α β : Type} {w : World} {o : Outcome α}
    {f : α → World → Outcome β} (h1 : Sends P w o.world)
    (h2 : ∀ a w1, o = .ok a w1 → Sends P w1 (f a w1).world) : Sends P w (o.bind f).world := by
  cases o with
  | ok a w1 => exact sends_trans h1 (h2 a w1 rfl)
  | panic w1 => exact h1
  | outOfFuel w1 => exact h1

theorem saveTrade_world (E : Env) (t : Trade) (w : World) :
    (saveTrade E t w).2.sent = w.sent ∧ (saveTrade E t w).2.A = w.A ∧
    (saveTrade E t w).2.refunds = w.refunds ∧ (saveTrade E t w).2.idCtr = w.idCtr := by
  unfold saveTrade
  split <;> exact ⟨rfl, rfl, rfl, rfl⟩

theorem updateTrade_world (E : Env) (q : TradeFilter) (t : Trade) (w : World) :
    (updateTrade E q t w).2.sent = w.sent ∧ (updateTrade E q t w).2.A = w.A ∧
    (updateTrade E q t w).2.refunds = w.refunds ∧ (updateTrade E q t w).2.idCtr = w.idCtr := by
  unfold updateTrade
  split <;> exact ⟨rfl, rfl, rfl, rfl⟩

theorem saveRefund_world (E : Env) (r : Refund) (w : World) :
    (saveRefund E r w).2.sent = w.sent ∧ (saveRefund E r w).2.A = w.A ∧
    (saveRefund E r w).2.trades = w.trades := by
  unfold saveRefund
  split <;> exact ⟨rfl, rfl, rfl⟩

theorem barPaySave_world (E : Env) (req : BarPay) (info : Info) (l1 : BarPayLocals)
    (w : World) :
    (barPaySave E req info l1 w).world.sent = w.sent ∧
    (barPaySave E req info l1 w).world.A = w.A := by
  unfold barPaySave
  split
  · split
    · exact ⟨rfl, rfl⟩
    · simp only []
      split
      · split
        · exact ⟨(saveTrade_world E _ _).1, (saveTrade_world E _ _).2.1⟩
        · exact ⟨(updateTrade_world E _ _ _).1, (updateTrade_world E _ _ _).2.1⟩
      · exact ⟨rfl, rfl⟩
  · exact ⟨rfl, rfl⟩

theorem refundDone_world (E : Env) (req : Refund) (e : Error) (info : Info) (err : Err)
    (w : World) :
    (refundDone E req e info err w).world.sent = w.sent ∧
    (refundDone E req e info err w).world.trades = w.trades := by
  unfold refundDone
  split
  · exact ⟨rfl, rfl⟩
  · split
    · split
      · exact ⟨rfl, rfl⟩
      · simp only []
        split
        · exact ⟨rfl, rfl⟩
        · exact ⟨(saveRefund_world E _ _).1, (saveRefund_world E _ _).2.2⟩
    · exact ⟨rfl, rfl⟩

theorem allowsSync_true (out : String) : AllowsSync (fun _ _ => True) out :=
  fun _ _ _ _ _ _ _ _ => trivial

theorem ctx_token (E : Env) (u m : String) (w : World) :
    Ctx (AliPay.token E u m w).1 w.A.serviceid (AliPay.token E u m w).2 :=
  ⟨token_cached E u m w,
    (frame_token (P := fun _ => True) (Q := fun _ => True) true_preorder2 E u m w).serviceid⟩

theorem Cancel_sends (E : Env) (fuel : Nat) (req : Trade) (a : Auth) (s : String) (w : World)
    (hc : Ctx a s w) : Sends (WireOK a s) w (AliPay.Cancel E fuel req w).world := by
  have h := Cancel_frame (Q := fun _ => True) true_preorder2 E fuel req w
  rw [token_of_ctx E _ _ hc, hc.2] at h
  exact sends_mono h.sent (fun r hr => hr.1)

theorem TradeInfo_sends (E : Env) (fuel : Nat) (req : Trade) (sync : Bool) (a : Auth)
    (s : String) (w : World) (hc : Ctx a s w) :
    Sends (IsWire a s "alipay.trade.query") w (AliPay.TradeInfo E fuel req sync w).world := by
  have h := TradeInfo_frame (Q := IsUpdate) true_preorder2 E fuel req sync w
    (fun q t => ⟨q, t, rfl⟩) (fun _ _ _ _ _ _ _ => trivial)
  rw [token_of_ctx E _ _ hc, hc.2] at h
  exact h.sent

theorem barPayDone_sends (E : Env) (fuel : Nat) (req : BarPay) (info : Info) (err : Err)
    (l : BarPayLocals) (a : Auth) (s : String) (w : World) (hc : Ctx a s w) :
    Sends (WireOK a s) w (barPayDone E fuel req info err l w).world := by
  unfold barPayDone
  obtain ⟨h1, h2⟩ := barPaySave_world E req info (barPayJudge E info err l) w
  refine sends_bind (sends_of_eq h1) ?_
  intro trade w1 hw1
  rw [Outcome.world_of_ok hw1] at h2
  have hc1 : Ctx a s w1 := ⟨by rw [h2]; exact hc.1, by rw [h2]; exact hc.2⟩
  split
  · refine sends_bind (Cancel_sends E fuel _ a s w1 hc1) ?_
    intro _ w2 _
    exact sends_refl _ _
  · exact sends_refl _ _

theorem BarPay_sends (E : Env) (fuel : Nat) (req : BarPay) (w : World) :
    Sends (WireOK (AliPay.token E req.UserID req.MchID w).1 w.A.serviceid) w
      (AliPay.BarPay E fuel req w).world := by
  have hc := ctx_token E req.UserID req.MchID w
  have h1 := (token_world E req.UserID req.MchID w).1
  unfold AliPay.BarPay
  simp only []
  generalize AliPay.token E req.UserID req.MchID w = tk at hc h1 ⊢
  obtain ⟨a, w1⟩ := tk
  simp only [] at hc h1 ⊢
  split
  · exact sends_of_eq h1
  · split
    · exact sends_of_eq h1
    · obtain ⟨hw2, hwire⟩ := barPayParams_wire E a req w1 (barPayParams E a req w1).2.A.url
      rw [hc.2] at hwire
      have hc2 : Ctx a w.A.serviceid (barPayParams E a req w1).2 := by
        rw [hw2]; exact hc
      have hs2 : (barPayParams E a req w1).2.sent = w.sent := by
        rw [hw2]; exact h1
      generalize barPayParams E a req w1 = tp at hwire hc2 hs2 ⊢
      obtain ⟨sp, w2⟩ := tp
      simp only [] at hwire hc2 hs2 ⊢
      have hC : ∀ w w', Ctx a w.A.serviceid w → Frame (WireOK a w.A.serviceid) IsUpdate
          (fun _ _ => True) w w' → Ctx a w.A.serviceid w' := by
        intro w w' h hf
        rw [← hf.serviceid]
        exact ⟨(h.step hf).1, rfl⟩
      have hreq := Request_barPay_frame (P := WireOK a w.A.serviceid) true_preorder2 E req
        (Ctx a w.A.serviceid) (fun _ _ h hf => h.step hf)
        (fun fuel w0 h0 => TradeInfo_frame_ctx true_preorder2 E fuel req.OutTradeID a _
          (allowsSync_true _) w0 h0)
        w2.A.url sp "alipay_trade_pay_response" hwire.1 fuel { trade := some (getTrade
          { outtradeid := some req.OutTradeID } w1) } w2 hc2
      refine sends_trans (sends_of_eq hs2) (sends_bind hreq.sent ?_)
      intro r w3 hr
      rw [Outcome.world_of_ok hr] at hreq
      exact barPayDone_sends E fuel req _ _ _ a _ w3 (hc2.step hreq)

theorem Refund_sends (E : Env) (fuel : Nat) (req : Refund) (w : World) :
    Sends (WireOK (AliPay.token E req.UserID req.MchID w).1 w.A.serviceid) w
      (AliPay.Refund E fuel req w).world := by
  have hc := ctx_token E req.UserID req.MchID w
  have h1 := (token_world E req.UserID req.MchID w).1
  unfold AliPay.Refund
  simp only []
  generalize AliPay.token E req.UserID req.MchID w = tk at hc h1 ⊢
  obtain ⟨a, w1⟩ := tk
  simp only [] at hc h1 ⊢
  split
  · exact sends_of_eq h1
  · have hti := TradeInfo_frame_ctx true_preorder2 E fuel req.SourceID a _
      (allowsSync_true _) w1 hc
    refine sends_trans (sends_of_eq h1) (sends_bind hti.sent ?_)
    intro r w2 hr
    rw [Outcome.world_of_ok hr] at hti
    have hc2 := hc.step hti
    split
    · exact sends_refl _ _
    · split
      · exact sends_refl _ _
      · split
        · exact sends_refl _ _
        · obtain ⟨hw3, hwire⟩ := refundParams_wire E a req w2 (refundParams E a req w2).2.A.url
          rw [hc2.2] at hwire
          have hs3 : (refundParams E a req w2).2.sent = w2.sent := by
            rw [hw3]; rfl
          generalize refundParams E a req w2 = tp at hwire hs3 ⊢
          obtain ⟨sp, w3⟩ := tp
          simp only [] at hwire hs3 ⊢
          have hreq := Request_retry_frame (P := WireOK a w.A.serviceid) (Q := fun _ => True)
            true_preorder2 E w3.A.url sp "alipay_trade_refund_response" hwire.1 fuel w3
          refine sends_trans (sends_of_eq hs3) (sends_bind hreq.sent ?_)
          intro r1 w4 _
          exact sends_of_eq (refundDone_world E req _ _ _ w4).1

/-- C2: in every run of BarPay, Refund, Cancel and TradeInfo, every request the run
adds to the wire log (the workflow's own signed request, its resends, and the
queries and cancels it starts) carries the key `app_auth_token`, with the
resolved Auth's token as value, if the Auth's merchant differs from the
service merchant, and does not carry the key if they are equal; and this holds
of the signed parameter map each of the four workflows builds. -/
theorem C2_delegation_token (E : Env) (fuel : Nat) (c : Call) (w : World) :
    (∃ new, (c.run E fuel w).world.sent = w.sent ++ new ∧ ∀ r ∈ new,
      r.get.lookup "app_auth_token" =
        if (AliPay.token E c.UserID c.MchID w).1.MchID ≠ w.A.serviceid
        then some (AliPay.token E c.UserID c.MchID w).1.Token else none) ∧
    (∀ (auth : Auth) (bp : BarPay) (rf : Refund) (tr : Trade),
      (barPayParams E auth bp w).1.lookup "app_auth_token" =
        (if auth.MchID ≠ w.A.serviceid then some auth.Token else none) ∧
      (refundParams E auth rf w).1.lookup "app_auth_token" =
        (if auth.MchID ≠ w.A.serviceid then some auth.Token else none) ∧
      (cancelParams E auth tr w).1.lookup "app_auth_token" =
        (if auth.MchID ≠ w.A.serviceid then some auth.Token else none) ∧
      (tradeInfoParams E auth tr w).1.lookup "app_auth_token" =
        (if auth.MchID ≠ w.A.serviceid then some auth.Token else none)) := by
  constructor
  · cases c with
    | barPay req =>
      have h := BarPay_sends E fuel req w
      simp only [Call.run, Call.UserID, Call.MchID]
      cases ho : AliPay.BarPay E fuel req w <;> rw [ho] at h <;> exact h
    | refund req =>
      have h := Refund_sends E fuel req w
      simp only [Call.run, Call.UserID, Call.MchID]
      cases ho : AliPay.Refund E fuel req w <;> rw [ho] at h <;> exact h
    | cancel req =>
      have hc := ctx_token E req.UserID req.MchID w
      have h1 := (token_world E req.UserID req.MchID w).1
      have h := Cancel_frame (Q := fun _ => True) true_preorder2 E fuel req w
      exact sends_mono h.sent (fun r hr => hr.1)
    | tradeInfo req sync =>
      have h := TradeInfo_frame (Q := IsUpdate) true_preorder2 E fuel req sync w
        (fun q t => ⟨q, t, rfl⟩) (fun _ _ _ _ _ _ _ => trivial)
      have h2 : Sends _ w (AliPay.TradeInfo E fuel req sync w).world :=
        sends_mono h.sent (fun r hr => hr.1)
      simp only [Call.run, Call.UserID, Call.MchID]
      cases ho : AliPay.TradeInfo E fuel req sync w <;> rw [ho] at h2 <;> exact h2
  · intro auth bp rf tr
    exact ⟨(barPayParams_wire E auth bp w "").2.1, (refundParams_wire E auth rf w "").2.1,
      (cancelParams_wire E auth tr w "").2.1, (tradeInfoParams_wire E auth tr w "").2.1⟩

/-! ### Query and sync -/

theorem TradeInfo_eq (E : Env) (fuel : Nat) (req : Trade) (w : World)
    (hauth : (AliPay.token E req.UserID req.MchID w).1.Status = E.AuthStatusSucc) :
    AliPay.TradeInfo E fuel req true w =
      (AliPay.Request E (tradeInfoRq E fuel req w).1 () (tradeInfoRq E fuel req w).2).bind
        (fun r w3 => tradeInfoSync E req
          (getTrade (tradeInfoFilter req) w) r.1 r.2.1 w3) := by
  have hg := getTrade_congr (tradeInfoFilter req) (token_world E req.UserID req.MchID w).2.2.1
  unfold AliPay.TradeInfo tradeInfoRq
  simp only [hauth, ne_eq, not_true_eq_false, if_false, Bool.not_true, Bool.false_eq_true, hg]

theorem tradeInfoRq_frame (E : Env) (fuel : Nat) (req : Trade) (w : World) :
    Frame (fun _ => True) (fun _ => False) (fun a b : List Trade => b = a) w
      (tradeInfoRq E fuel req w).2 ∧
    Frame (fun _ => True) (fun _ => False) (fun a b : List Trade => b = a)
      (tradeInfoRq E fuel req w).2
      (AliPay.Request E (tradeInfoRq E fuel req w).1 () (tradeInfoRq E fuel req w).2).world := by
  constructor
  · unfold tradeInfoRq
    simp only [(tradeInfoParams_wire E _ req _ "").1]
    exact frame_trans eq_preorder2 (frame_token eq_preorder2 E _ _ w)
      (frame_getNowSec eq_preorder2 E _)
  · exact Request_retry_frame eq_preorder2 E _ _ _ trivial fuel _

/-- C9: a sync of TradeInfo under a valid Auth whose request came back from the
gateway with a nil error and a payload carrying the amount, the status and the
provider trade number returns a trade with the local trade's internal ID and
creation time and with the status and provider trade number of the payload; when
a local trade exists the run makes exactly one write, the update of the row
selected by that internal ID with the returned trade; when none exists the
write log and the ledger are what they were. -/
theorem C9_sync_reconciles (E : Env) (fuel : Nat) (req : Trade) (w w3 : World) (d : JObj)
    (amt st no : String)
    (hauth : (AliPay.token E req.UserID req.MchID w).1.Status = E.AuthStatusSucc)
    (hreq : AliPay.Request E (tradeInfoRq E fuel req w).1 () (tradeInfoRq E fuel req w).2
      = .ok (.map d, none, ()) w3)
    (hamt : wantStr d "total_amount" = some amt)
    (hst : wantStr d "trade_status" = some st)
    (hno : wantStr d "trade_no" = some no)
    (hdate : d.lookup "send_pay_date" = none ∨ ∃ s, d.lookup "send_pay_date" = some (.str s)) :
    ∃ t e w', AliPay.TradeInfo E fuel req true w = .ok (some t, e) w' ∧
      t.ID = (getTrade (tradeInfoFilter req) w).ID ∧
      t.Create = (getTrade (tradeInfoFilter req) w).Create ∧
      t.Status = aliTradeStatusMap E st ∧ t.TradeID = no ∧
      ((getTrade (tradeInfoFilter req) w).ID ≠ "" →
        w'.writes = w.writes ++
          [.updateTrade { id := some (getTrade (tradeInfoFilter req) w).ID } t]) ∧
      ((getTrade (tradeInfoFilter req) w).ID = "" →
        w'.writes = w.writes ∧ w'.trades = w.trades) := by
  obtain ⟨f1, f2⟩ := tradeInfoRq_frame E fuel req w
  rw [Outcome.world_of_ok hreq] at f2
  have hf := frame_trans eq_preorder2 f1 f2
  have hw : w3.writes = w.writes := by
    obtain ⟨new, e, p⟩ := hf.writes
    cases new with
    | nil => simpa using e
    | cons x xs => exact absurd (p x (List.mem_cons_self _ _)) id
  have htr : w3.trades = w.trades := hf.trades
  have hau : w3.A.rs.auth = some (AliPay.token E req.UserID req.MchID w).1 := by
    have h1 : (tradeInfoRq E fuel req w).2.A.rs.auth
        = some (AliPay.token E req.UserID req.MchID w).1 := by
      unfold tradeInfoRq
      simp only [(tradeInfoParams_wire E _ req _ "").1]
      exact token_cached E _ _ w
    rw [f2.auth (by rw [h1]; simp), h1]
  have hpaid : ∃ t1 : Trade, withPayDate E d (syncedTrade E req
      (getTrade (tradeInfoFilter req) w) (AliPay.token E req.UserID req.MchID w).1 amt st no
      (E.clock w3.ticks)) = some t1 := by
    unfold withPayDate
    rcases hdate with hd | ⟨s, hd⟩
    · rw [hd]; exact ⟨_, rfl⟩
    · rw [hd]; exact ⟨_, rfl⟩
  obtain ⟨t1, hp⟩ := hpaid
  obtain ⟨h1, -, -, h2, h3, h4⟩ := withPayDate_keeps E _ _ _ hp
  simp only [syncedTrade] at h1 h2 h3 h4
  rw [TradeInfo_eq E fuel req w hauth, hreq]
  simp only [Outcome.bind]
  unfold tradeInfoSync
  simp only [hamt, hst, hno, getNowSec, hau, hp]
  by_cases hid : t1.ID = ""
  · rw [if_pos hid]
    refine ⟨_, _, _, rfl, h1, h2, h3, h4, fun h => absurd (h1 ▸ hid) h, fun _ => ⟨hw, htr⟩⟩
  · rw [if_neg hid]
    have hwr := fun (w0 : World) => show (updateTrade E { id := some t1.ID } t1 w0).2.writes
        = w0.writes ++ [.updateTrade { id := some t1.ID } t1] by
      unfold updateTrade
      split <;> rfl
    have hid1 : (getTrade (tradeInfoFilter req) w).ID ≠ "" := h1 ▸ hid
    have hw2 : ∀ w0 : World, w0.writes = w3.writes →
        (updateTrade E { id := some t1.ID } t1 w0).2.writes = w.writes ++
          [.updateTrade { id := some (getTrade (tradeInfoFilter req) w).ID } t1] := by
      intro w0 h0
      rw [hwr, h0, hw, h1]
    split <;>
      exact ⟨_, _, _, rfl, h1, h2, h3, h4, fun _ => hw2 _ rfl, fun h => absurd h hid1⟩

/-- C9 at a concrete input: the unpaid local trade `o1` (internal ID `t1`, created
at 500) synced against a gateway that reports it paid under trade number `T1`. -/
theorem C9_sync_reconciles_witness :
    ∃ t e w', AliPay.TradeInfo (demoEnv paidGateway demoClock) 3 { OutTradeID := "o1" } true
        unpaidWorld = .ok (some t, e) w' ∧
      t.ID = "t1" ∧ t.Create = 500 ∧ t.Status = 1 ∧ t.TradeID = "T1" ∧
      w'.writes = [.updateTrade { id := some "t1" } t] := by
  obtain ⟨t, e, w', h, h1, h2, h3, h4, h5, _⟩ :=
    C9_sync_reconciles (demoEnv paidGateway demoClock) 3 { OutTradeID := "o1" } unpaidWorld
      (AliPay.Request (demoEnv paidGateway demoClock)
        (tradeInfoRq (demoEnv paidGateway demoClock) 3 { OutTradeID := "o1" } unpaidWorld).1 ()
        (tradeInfoRq (demoEnv paidGateway demoClock) 3 { OutTradeID := "o1" } unpaidWorld).2).world
      paidPayload "1.00" "TRADE_SUCCESS" "T1" (by decide) (by rfl) (by decide) (by decide)
      (by decide) (Or.inl (by decide))
  exact ⟨t, e, w', h, h1.trans (by decide), h2.trans (by decide), h3.trans (by decide), h4,
    (h5 (by decide)).trans (by rfl)⟩

/-! ### BarPay: polling and resending -/

/-- C7 fails on the code: the payment is answered `10003`, the first status query
of the polling loop reports the trade paid (`TRADE_SUCCESS`), and the deadline has
not passed: the loop has no exit on success, so BarPay sends a second status
query (and starts a third sync, which times out).  The paid trade is then stored
without the provider trade number, and BarPay returns the generic `PayErr`. -/
theorem C7_polling_goes_on :
    waitGateway 1 = .json [("alipay_trade_query_response", .obj paidPayload)] ∧
    aliTradeStatusMap (demoEnv waitGateway jumpClock) "TRADE_SUCCESS"
      = (demoEnv waitGateway jumpClock).TradeStatusSucc ∧
    methodsSent (AliPay.BarPay (demoEnv waitGateway jumpClock) 10 demoBarPay demoWorld).world
      = [some "alipay.trade.pay", some "alipay.trade.query", some "alipay.trade.query"] ∧
    (AliPay.BarPay (demoEnv waitGateway jumpClock) 10 demoBarPay demoWorld).val.map
        (fun r => (r.1.map (fun t => (t.Status, t.TradeID)), r.2.Code))
      = some (some ((demoEnv waitGateway jumpClock).TradeStatusSucc, ""),
          (demoEnv waitGateway jumpClock).PayErr) := by
  decide

/-- C8 fails on the code: the payment is answered `20000`, the status query says the
trade does not exist, and the identical request sent again succeeds.  BarPay
stores the trade as paid and sends no cancel, but the `Error` it returns still
carries the code `TradeErrNotFound` that the status query left in `e`. -/
theorem C8_stale_error :
    methodsSent (AliPay.BarPay (demoEnv retryGateway demoClock) 10 demoBarPay demoWorld).world
      = [some "alipay.trade.pay", some "alipay.trade.query", some "alipay.trade.pay"] ∧
    (AliPay.BarPay (demoEnv retryGateway demoClock) 10 demoBarPay demoWorld).world.trades.map
        (fun t => (t.OutTradeID, t.Status, t.TradeID))
      = [("o1", (demoEnv retryGateway demoClock).TradeStatusSucc, "T1")] ∧
    (AliPay.BarPay (demoEnv retryGateway demoClock) 10 demoBarPay demoWorld).val.map
        (fun r => r.2.Code)
      = some (demoEnv retryGateway demoClock).TradeErrNotFound ∧
    (demoEnv retryGateway demoClock).TradeErrNotFound ≠ 0 := by
  decide

/-! ### What a sync returns -/

theorem tradeInfoSync_val (E : Env) (req trade : Trade) (info : Info) (err : Err) (w w' : World)
    (r : Option Trade) (e : Error)
    (h : tradeInfoSync E req trade info err w = .ok (r, e) w') :
    ∃ t, r = some t ∧ t.ID = trade.ID ∧
      (t = trade ∨ (t.OutTradeID = req.OutTradeID ∧ t.From = ALIPAY)) := by
  unfold tradeInfoSync at h
  split at h
  · cases h
    exact ⟨trade, rfl, rfl, Or.inl rfl⟩
  · split at h
    · split at h
      · cases h
      · split at h
        · cases h
        · simp only [] at h
          split at h
          · cases h
          · split at h
            · cases h
            · split at h
              · cases h
              · next t1 hp =>
                obtain ⟨k1, k2, k3, -⟩ := withPayDate_keeps E _ _ _ hp
                split at h
                · cases h
                  exact ⟨t1, rfl, k1, Or.inr ⟨k2, k3⟩⟩
                · split at h <;>
                  · cases h
                    exact ⟨t1, rfl, k1, Or.inr ⟨k2, k3⟩⟩
    · cases h

theorem bind_eq_ok {α β : Type} {o : Outcome α} {f : α → World → Outcome β} {b : β}
    {w' : World} (h : o.bind f = .ok b w') : ∃ a w1, o = .ok a w1 ∧ f a w1 = .ok b w' := by
  cases o with
  | ok a w1 => exact ⟨a, w1, rfl, h⟩
  | panic w1 => cases h
  | outOfFuel w1 => cases h

theorem TradeInfo_val (E : Env) (fuel : Nat) (req : Trade) (sync : Bool) (w w' : World)
    (r : Option Trade) (e : Error)
    (h : AliPay.TradeInfo E fuel req sync w = .ok (r, e) w') :
    r = none ∨ ∃ t, r = some t ∧ t.ID = (getTrade (tradeInfoFilter req) w).ID ∧
      (t = getTrade (tradeInfoFilter req) w ∨
        (t.OutTradeID = req.OutTradeID ∧ t.From = ALIPAY)) := by
  have hg := getTrade_congr (tradeInfoFilter req) (token_world E req.UserID req.MchID w).2.2.1
  unfold AliPay.TradeInfo at h
  simp only [hg] at h
  split at h
  · cases h
    exact Or.inl rfl
  · split at h
    · cases h
      exact Or.inr ⟨_, rfl, rfl, Or.inl rfl⟩
    · obtain ⟨a, w1, -, h2⟩ := bind_eq_ok h
      exact Or.inr (tradeInfoSync_val E req _ _ _ _ _ _ _ h2)

/-! ### Requests return -/

theorem errorCheck_ok (d : JObj) (h : PayloadOK d) :
    ∃ next err, AliPay.errorCheck d = some (next, err) ∧
      (err = none → d.lookup "code" = some (.str "10000")) := by
  obtain ⟨⟨c, hc⟩, hs, -⟩ := h
  have hsub : ∃ sub, (match d.lookup "sub_code" with
        | none => some ""
        | some (.str s) => some s
        | some .other => none) = some sub := by
    cases hl : d.lookup "sub_code" with
    | none => exact ⟨"", rfl⟩
    | some v =>
      cases v with
      | str s => exact ⟨s, rfl⟩
      | other => exact absurd hl hs
  obtain ⟨sub, hsub⟩ := hsub
  unfold AliPay.errorCheck
  simp only [hc, hsub]
  by_cases h1 : c = "10000"
  · subst h1
    exact ⟨.nextStop, none, by simp, fun _ => rfl⟩
  · simp only [h1, if_false]
    split
    · exact ⟨_, _, rfl, by simp [newError]⟩
    · split
      · exact ⟨_, _, rfl, by simp [newError]⟩
      · split
        · exact ⟨_, _, rfl, by simp [newError]⟩
        · exact ⟨_, _, rfl, by simp [newError]⟩

theorem request_ok (E : Env) (hg : GatewayOK E) (url : String) (get : Params) (w : World) :
    ∃ info next err,
      AliPay.request E url get "alipay_trade_query_response" w
        = .ok (info, next, err) { w with sent := w.sent ++ [⟨url, get⟩] } ∧
      QueryRes info err := by
  unfold AliPay.request
  simp only []
  cases hb : E.gateway w.sent.length with
  | netFail e => exact ⟨_, _, _, rfl, by simp [QueryRes]⟩
  | badJson e => exact ⟨_, _, _, rfl, by simp [QueryRes]⟩
  | json top =>
    simp only []
    cases hl : top.lookup "alipay_trade_query_response" with
    | none => exact ⟨_, _, _, rfl, by simp [QueryRes, newError]⟩
    | some v =>
      cases v with
      | other => exact ⟨_, _, _, rfl, by simp [QueryRes, newError]⟩
      | obj d =>
        have hp := hg _ top d hb hl
        obtain ⟨next, err, he, hcode⟩ := errorCheck_ok d hp
        simp only [he]
        exact ⟨_, _, _, rfl, fun h => ⟨d, rfl, hp, hcode h⟩⟩

theorem startClock_of_running (E : Env) (w : World) (h : w.A.rs.t ≠ 0) : startClock E w = w := by
  simp [startClock, h]

theorem Request_startClock (E : Env) {L : Type} (d : requestSimple L) (l : L) (w : World)
    (h : (startClock E w).A.rs.t ≠ 0) :
    AliPay.Request E d l (startClock E w) = AliPay.Request E d l w := by
  unfold AliPay.Request
  rw [startClock_of_running E _ h]

/-- With a well-formed gateway, a running deadline clock and readings that pass the
deadline from the `K`-th on, the retrying query request returns once its fuel
reaches `K`. -/
theorem Request_retry_returns (E : Env) (hg : GatewayOK E) (url : String) (get : Params)
    (K : Nat) (fuel : Nat) : ∀ (w : World), w.A.rs.t ≠ 0 →
      (∀ k, K ≤ k → E.clock k - w.A.rs.t > E.maxTimeout) → K ≤ fuel + w.ticks →
      ∃ info err w',
        AliPay.Request E (retryRq E url get "alipay_trade_query_response" fuel) () w
          = .ok (info, err, ()) w' ∧ QueryRes info err := by
  induction fuel with
  | zero =>
    intro w ht hK hf
    unfold AliPay.Request
    rw [startClock_of_running E w ht]
    simp only []
    rw [if_pos (by simpa [getNowSec] using hK w.ticks (by omega))]
    exact ⟨_, _, _, rfl, by simp [QueryRes]⟩
  | succ n ih =>
    intro w ht hK hf
    unfold AliPay.Request
    rw [startClock_of_running E w ht]
    simp only []
    split
    · exact ⟨_, _, _, rfl, by simp [QueryRes]⟩
    · next hnot =>
      have hlt : w.ticks < K := by
        by_contra hge
        exact hnot (by simpa [getNowSec] using hK w.ticks (by omega))
      obtain ⟨info, next, err, hreq, hres⟩ := request_ok E hg url get (getNowSec E w).2
      simp only [retryRq]
      rw [hreq]
      simp only []
      cases err with
      | none => exact ⟨_, _, _, rfl, hres⟩
      | some m =>
        simp only []
        have hrec := ih (sleep 1 { (getNowSec E w).2 with
            sent := (getNowSec E w).2.sent ++ [⟨url, get⟩] }) ht hK
          (by simp only [sleep, getNowSec]; omega)
        cases next with
        | netConnErr => exact hrec
        | nextRetry => exact hrec
        | nextStop => exact ⟨_, _, _, rfl, by simp [QueryRes]⟩
        | nextWaitRetry => exact ⟨_, _, _, rfl, by simp [QueryRes]⟩
        | nextWaitAuth => exact ⟨_, _, _, rfl, by simp [QueryRes]⟩

theorem tradeInfoRq_after (E : Env) (fuel : Nat) (req : Trade) (w w3 : World)
    (r : Info × Err × Unit)
    (hreq : AliPay.Request E (tradeInfoRq E fuel req w).1 () (tradeInfoRq E fuel req w).2
      = .ok r w3) :
    w3.A.rs.auth = some (AliPay.token E req.UserID req.MchID w).1 := by
  obtain ⟨-, f2⟩ := tradeInfoRq_frame E fuel req w
  rw [Outcome.world_of_ok hreq] at f2
  have h1 : (tradeInfoRq E fuel req w).2.A.rs.auth
      = some (AliPay.token E req.UserID req.MchID w).1 := by
    unfold tradeInfoRq
    simp only [(tradeInfoParams_wire E _ req _ "").1]
    exact token_cached E _ _ w
  rw [f2.auth (by rw [h1]; simp), h1]

theorem tradeInfoSync_returns (E : Env) (req trade : Trade) (info : Info) (err : Err)
    (w : World) (a : Auth) (hres : QueryRes info err) (hau : w.A.rs.auth = some a) :
    ∃ t e w', tradeInfoSync E req trade info err w = .ok (some t, e) w' := by
  unfold tradeInfoSync
  cases err with
  | some m => exact ⟨_, _, _, rfl⟩
  | none =>
    obtain ⟨d, hd, ⟨-, -, hp⟩, hcode⟩ := hres rfl
    obtain ⟨⟨amt, h1⟩, ⟨st, h2⟩, ⟨no, h3⟩, h4⟩ := hp hcode
    subst hd
    have hpaid : ∃ t1, withPayDate E d (syncedTrade E req trade a amt st no (E.clock w.ticks))
        = some t1 := by
      unfold withPayDate
      cases hl : d.lookup "send_pay_date" with
      | none => exact ⟨_, rfl⟩
      | some v =>
        cases v with
        | str s => exact ⟨_, rfl⟩
        | other => exact absurd hl h4
    obtain ⟨t1, hp1⟩ := hpaid
    simp only [h1, h2, h3, getNowSec, hau, hp1]
    split
    · exact ⟨_, _, _, rfl⟩
    · split <;> exact ⟨_, _, _, rfl⟩

/-- With a well-formed gateway and a clock that runs, a sync under a valid Auth
returns a trade once it has enough fuel. -/
theorem TradeInfo_returns (E : Env) (hg : GatewayOK E) (hc : ClockRuns E) (req : Trade)
    (w : World) (hauth : (AliPay.token E req.UserID req.MchID w).1.Status = E.AuthStatusSucc) :
    ∃ fuel0, ∀ fuel, fuel0 ≤ fuel →
      ∃ t e w2, AliPay.TradeInfo E fuel req true w = .ok (some t, e) w2 := by
  have ht0 : (startClock E (tradeInfoRq E 0 req w).2).A.rs.t ≠ 0 := by
    unfold startClock
    split
    · simpa [World.setT, getNowSec] using hc.1 _
    · next h => exact h
  obtain ⟨K, hK⟩ := hc.2 (startClock E (tradeInfoRq E 0 req w).2).A.rs.t
  refine ⟨K, fun fuel hf => ?_⟩
  obtain ⟨info, err, w3, hreq, hres⟩ := Request_retry_returns E hg
    (tradeInfoRq E 0 req w).2.A.url
    (tradeInfoParams E (AliPay.token E req.UserID req.MchID w).1 req
      (AliPay.token E req.UserID req.MchID w).2).1
    K fuel (startClock E (tradeInfoRq E 0 req w).2) ht0 hK (by omega)
  rw [Request_startClock E _ _ _ ht0] at hreq
  have hreq' : AliPay.Request E (tradeInfoRq E fuel req w).1 () (tradeInfoRq E fuel req w).2
      = .ok (info, err, ()) w3 := hreq
  have hau := tradeInfoRq_after E fuel req w w3 _ hreq'
  rw [TradeInfo_eq E fuel req w hauth, hreq']
  exact tradeInfoSync_returns E req _ info err w3 _ hres hau

/-! ### Refund -/

/-- C5, as stated, fails.  With no local trade for the source order, Refund rejects
with `TradeErrNotFound` but only after a status query has gone to the gateway;
and with a local trade that is not in status Success while the gateway reports it
paid, the sync makes it Success and Refund goes on: it sends the refund request
and saves a Refund row. -/
theorem C5_counterexample :
    ((getTrade (tradeInfoFilter { OutTradeID := demoRefund.SourceID }) demoWorld).ID = "" ∧
      (AliPay.Refund (demoEnv notExistGateway demoClock) 3 demoRefund demoWorld).val.map
          (fun r => r.2.Code) = some (demoEnv notExistGateway demoClock).TradeErrNotFound ∧
      methodsSent (AliPay.Refund (demoEnv notExistGateway demoClock) 3 demoRefund demoWorld).world
        = [some "alipay.trade.query"]) ∧
    ((getTrade (tradeInfoFilter { OutTradeID := demoRefund.SourceID }) unpaidWorld).ID = "t1" ∧
      (getTrade (tradeInfoFilter { OutTradeID := demoRefund.SourceID }) unpaidWorld).Status
        ≠ (demoEnv refundGateway demoClock).TradeStatusSucc ∧
      (AliPay.Refund (demoEnv refundGateway demoClock) 3 demoRefund unpaidWorld).val.map
          (fun r => r.2.Code) = some 0 ∧
      methodsSent (AliPay.Refund (demoEnv refundGateway demoClock) 3 demoRefund unpaidWorld).world
        = [some "alipay.trade.query", some "alipay.trade.refund"] ∧
      (AliPay.Refund (demoEnv refundGateway demoClock) 3 demoRefund unpaidWorld).world.refunds.length
        = 1) := by
  decide

/-- C5, amended: under a valid Auth, Refund first syncs the source trade with the
gateway.  Whenever that sync returns a trade with an empty internal ID (which it
does whenever there is no local trade) or reports `TradeErrNotFound`, Refund
rejects with `TradeErrNotFound`; otherwise, when the returned trade is not in
status Success, it rejects with `TradeErrStatus`.  In both cases no Refund row is
saved, every request sent is a trade query (no refund request goes out), and every
write is an update of a trade.  With a well-formed gateway and a clock that runs
the sync returns once it has enough fuel, so that a refund with no local trade is
rejected with `TradeErrNotFound`. -/
theorem C5_refund_rejects (E : Env) (req : Refund) (w : World)
    (hauth : (AliPay.token E req.UserID req.MchID w).1.Status = E.AuthStatusSucc) :
    (∀ fuel trade e w2,
      AliPay.TradeInfo E fuel { OutTradeID := req.SourceID } true
        (AliPay.token E req.UserID req.MchID w).2 = .ok (some trade, e) w2 →
      (trade.ID = "" ∨ e.Code = E.TradeErrNotFound →
        AliPay.Refund E fuel req w = .ok (none, { e with Code := E.TradeErrNotFound }) w2) ∧
      (¬ (trade.ID = "" ∨ e.Code = E.TradeErrNotFound) → trade.Status ≠ E.TradeStatusSucc →
        AliPay.Refund E fuel req w = .ok (none, { e with Code := E.TradeErrStatus }) w2) ∧
      w2.refunds = w.refunds ∧
      (∃ new, w2.sent = w.sent ++ new ∧
        ∀ r ∈ new, r.get.lookup "method" = some "alipay.trade.query") ∧
      (∃ new, w2.writes = w.writes ++ new ∧ ∀ x ∈ new, IsUpdate x) ∧
      ((getTrade (tradeInfoFilter { OutTradeID := req.SourceID }) w).ID = "" → trade.ID = "")) ∧
    (GatewayOK E → ClockRuns E → ∃ fuel0, ∀ fuel, fuel0 ≤ fuel →
      ∃ trade e w2, AliPay.TradeInfo E fuel { OutTradeID := req.SourceID } true
        (AliPay.token E req.UserID req.MchID w).2 = .ok (some trade, e) w2) ∧
    (GatewayOK E → ClockRuns E →
      (getTrade (tradeInfoFilter { OutTradeID := req.SourceID }) w).ID = "" →
      ∃ fuel0, ∀ fuel, fuel0 ≤ fuel → ∃ e w2,
        AliPay.Refund E fuel req w = .ok (none, e) w2 ∧ e.Code = E.TradeErrNotFound ∧
        w2.refunds = w.refunds ∧
        ∃ new, w2.sent = w.sent ++ new ∧
          ∀ r ∈ new, r.get.lookup "method" = some "alipay.trade.query") := by
  have hc := ctx_token E req.UserID req.MchID w
  have htw := token_world E req.UserID req.MchID w
  have hA : ∀ fuel trade e w2,
      AliPay.TradeInfo E fuel { OutTradeID := req.SourceID } true
        (AliPay.token E req.UserID req.MchID w).2 = .ok (some trade, e) w2 →
      (trade.ID = "" ∨ e.Code = E.TradeErrNotFound →
        AliPay.Refund E fuel req w = .ok (none, { e with Code := E.TradeErrNotFound }) w2) ∧
      (¬ (trade.ID = "" ∨ e.Code = E.TradeErrNotFound) → trade.Status ≠ E.TradeStatusSucc →
        AliPay.Refund E fuel req w = .ok (none, { e with Code := E.TradeErrStatus }) w2) ∧
      w2.refunds = w.refunds ∧
      (∃ new, w2.sent = w.sent ++ new ∧
        ∀ r ∈ new, r.get.lookup "method" = some "alipay.trade.query") ∧
      (∃ new, w2.writes = w.writes ++ new ∧ ∀ x ∈ new, IsUpdate x) ∧
      ((getTrade (tradeInfoFilter { OutTradeID := req.SourceID }) w).ID = "" →
        trade.ID = "") := by
    intro fuel trade e w2 hsync
    have hf := TradeInfo_frame (Q := IsUpdate) true_preorder2 E fuel
      { OutTradeID := req.SourceID } true (AliPay.token E req.UserID req.MchID w).2
      (fun q t => ⟨q, t, rfl⟩) (fun _ _ _ _ _ _ _ => trivial)
    rw [Outcome.world_of_ok hsync] at hf
    have hv := TradeInfo_val E fuel _ true _ _ _ _ hsync
    refine ⟨?_, ?_, by rw [hf.refunds, htw.2.2.2], ?_, ?_, ?_⟩
    · intro h
      unfold AliPay.Refund
      simp only [hauth, ne_eq, not_true_eq_false, if_false, hsync, Outcome.bind, h, if_true]
    · intro h1 h2
      unfold AliPay.Refund
      simp only [hauth, ne_eq, not_true_eq_false, if_false, hsync, Outcome.bind, h1, h2,
        not_false_eq_true, if_true]
    · obtain ⟨new, e1, p1⟩ := hf.sent
      exact ⟨new, by rw [e1, htw.1], fun r hr => (p1 r hr).2⟩
    · obtain ⟨new, e1, p1⟩ := hf.writes
      exact ⟨new, by rw [e1, htw.2.1], p1⟩
    · intro hnone
      rcases hv with hv | ⟨t, ht, hid, -⟩
      · cases hv
      · cases ht
        rw [hid, getTrade_congr _ htw.2.2.1]
        exact hnone
  have hB : GatewayOK E → ClockRuns E → ∃ fuel0, ∀ fuel, fuel0 ≤ fuel →
      ∃ trade e w2, AliPay.TradeInfo E fuel { OutTradeID := req.SourceID } true
        (AliPay.token E req.UserID req.MchID w).2 = .ok (some trade, e) w2 := by
    intro hg hcl
    refine TradeInfo_returns E hg hcl { OutTradeID := req.SourceID } _ ?_
    rw [token_of_ctx E _ _ hc]
    exact hauth
  refine ⟨hA, hB, ?_⟩
  intro hg hcl hnone
  obtain ⟨fuel0, h0⟩ := hB hg hcl
  refine ⟨fuel0, fun fuel hfuel => ?_⟩
  obtain ⟨trade, e, w2, hsync⟩ := h0 fuel hfuel
  obtain ⟨a1, -, a3, a4, -, a6⟩ := hA fuel trade e w2 hsync
  exact ⟨_, w2, a1 (Or.inl (a6 hnone)), rfl, a3, a4⟩

theorem notExistGateway_ok (clock : Nat → Int) : GatewayOK (demoEnv notExistGateway clock) := by
  intro k top d h1 h2
  simp only [demoEnv, notExistGateway, Body.json.injEq] at h1
  subst h1
  simp [List.lookup] at h2
  subst h2
  refine ⟨⟨"40004", by decide⟩, by decide, fun h => absurd h (by decide)⟩

theorem demoClock_runs (gateway : Nat → Body) : ClockRuns (demoEnv gateway demoClock) := by
  refine ⟨fun k => ?_, fun t => ⟨(t + 1801).toNat, fun k hk => ?_⟩⟩
  · simp only [demoEnv, demoClock]
    omega
  · simp only [demoEnv, demoClock]
    omega

/-- C5 (amended) at a concrete input: a refund of the order `o1`, of which the
ledger has no trade, against a gateway that does not know the order either. -/
theorem C5_refund_rejects_witness :
    ∃ fuel0, ∀ fuel, fuel0 ≤ fuel → ∃ e w2,
      AliPay.Refund (demoEnv notExistGateway demoClock) fuel demoRefund demoWorld
        = .ok (none, e) w2 ∧
      e.Code = (demoEnv notExistGateway demoClock).TradeErrNotFound ∧
      w2.refunds = demoWorld.refunds ∧
      ∃ new, w2.sent = demoWorld.sent ++ new ∧
        ∀ r ∈ new, r.get.lookup "method" = some "alipay.trade.query" :=
  (C5_refund_rejects (demoEnv notExistGateway demoClock) demoRefund demoWorld (by decide)).2.2
    (notExistGateway_ok demoClock) (demoClock_runs notExistGateway) (by decide)

/-! ### The ledger invariant -/

theorem map_out_of_keys (l : List Trade) :
    l.map (fun t => t.OutTradeID) = (l.map tradeKey).map Prod.snd := by
  simp [List.map_map, Function.comp_def, tradeKey]

theorem map_id_of_keys (l : List Trade) :
    l.map (fun t => t.ID) = (l.map tradeKey).map Prod.fst := by
  simp [List.map_map, Function.comp_def, tradeKey]

theorem keeps_preorder2 : Preorder2 Keeps :=
  ⟨fun _ h => ⟨h, rfl⟩, fun _ _ _ h1 h2 h => by
    obtain ⟨a1, a2⟩ := h1 h
    obtain ⟨b1, b2⟩ := h2 a1
    exact ⟨b1, b2.trans a2⟩⟩

theorem matches_id (v : String) (t : Trade) :
    TradeFilter.matches { id := some v } t = decide (t.ID = v) := by
  simp [TradeFilter.matches]

theorem matches_out (v : String) (t : Trade) :
    TradeFilter.matches { outtradeid := some v } t = decide (t.OutTradeID = v) := by
  simp [TradeFilter.matches]

theorem matches_sync (x : String) (hx : x ≠ "") (t : Trade) :
    (tradeInfoFilter { OutTradeID := x }).matches t
      = (decide (t.OutTradeID = x) && decide (t.From = ALIPAY)) := by
  simp [TradeFilter.matches, tradeInfoFilter, hx]

/-- Writing over the row of an internal ID a record with the same two ids leaves
the ids of the ledger as they were. -/
theorem replaceFirst_keys (t1 : Trade) : ∀ (l : List Trade),
    (l.map (fun t => t.ID)).Nodup → (∃ t0 ∈ l, tradeKey t0 = tradeKey t1) →
    (replaceFirst (TradeFilter.matches { id := some t1.ID }) t1 l).map tradeKey
        = l.map tradeKey ∧
    ∀ t ∈ replaceFirst (TradeFilter.matches { id := some t1.ID }) t1 l, t = t1 ∨ t ∈ l := by
  intro l
  induction l with
  | nil =>
    intro _ h
    obtain ⟨t0, h0, -⟩ := h
    cases h0
  | cons x xs ih =>
    intro hnd h
    obtain ⟨t0, h0, hk⟩ := h
    simp only [replaceFirst, matches_id]
    by_cases hx : x.ID = t1.ID
    · simp only [hx, decide_True, if_true, List.map_cons, List.mem_cons]
      have hx0 : t0 = x := by
        rcases List.mem_cons.1 h0 with h | h
        · exact h
        · exfalso
          have hid : t0.ID = x.ID := by
            have := congrArg Prod.fst hk
            simp only [tradeKey] at this
            rw [this, hx]
          simp only [List.map_cons, List.nodup_cons] at hnd
          exact hnd.1 (hid ▸ List.mem_map_of_mem (fun t => t.ID) h)
      subst hx0
      exact ⟨by rw [hk], fun t ht => ht.imp id Or.inr⟩
    · simp only [hx, decide_False, Bool.false_eq_true, if_false, List.map_cons, List.mem_cons]
      have h0' : t0 ∈ xs := by
        rcases List.mem_cons.1 h0 with h | h
        · exfalso
          apply hx
          have := congrArg Prod.fst hk
          simp only [tradeKey] at this
          rw [← h, this]
        · exact h
      simp only [List.map_cons, List.nodup_cons] at hnd
      obtain ⟨i1, i2⟩ := ih hnd.2 ⟨t0, h0', hk⟩
      refine ⟨by rw [i1], fun t ht => ?_⟩
      rcases ht with ht | ht
      · exact Or.inr (Or.inl ht)
      · exact (i2 t ht).imp id Or.inr

theorem ledgerOK_of_keys {l l' : List Trade} (h : LedgerOK l)
    (hk : l'.map tradeKey = l.map tradeKey) (hm : ∀ t ∈ l', t.From = ALIPAY) : LedgerOK l' := by
  refine ⟨?_, ?_, fun t ht => ⟨?_, hm t ht⟩⟩
  · rw [map_id_of_keys, hk, ← map_id_of_keys]; exact h.1
  · rw [map_out_of_keys, hk, ← map_out_of_keys]; exact h.2.1
  · have h1 : t.ID ∈ l'.map (fun t => t.ID) := List.mem_map_of_mem (fun t => t.ID) ht
    rw [map_id_of_keys, hk, ← map_id_of_keys] at h1
    obtain ⟨t', ht', he⟩ := List.mem_map.1 h1
    rw [← he]
    exact (h.2.2 t' ht').1

/-- The update a sync makes keeps a well-kept ledger. -/
theorem keeps_update (l : List Trade) (t1 : Trade) (h0 : ∃ t0 ∈ l, tradeKey t0 = tradeKey t1)
    (hfrom : t1.From = ALIPAY) :
    Keeps l (replaceFirst (TradeFilter.matches { id := some t1.ID }) t1 l) := by
  intro hok
  obtain ⟨k1, k2⟩ := replaceFirst_keys t1 l hok.1 h0
  refine ⟨ledgerOK_of_keys hok k1 ?_, k1⟩
  intro t ht
  rcases k2 t ht with h | h
  · rw [h]; exact hfrom
  · exact (hok.2.2 t h).2

theorem keeps_allowsSync (x : String) (hx : x ≠ "") : AllowsSync Keeps x := by
  intro l t0 t1 h0 hm e1 e2 e3
  rw [matches_sync x hx] at hm
  simp only [Bool.and_eq_true, decide_eq_true_eq] at hm
  refine keeps_update l t1 ⟨t0, h0, ?_⟩ e3
  simp only [tradeKey, e1, e2, hm.1]

theorem tracks_of_keys {x : String} {tr : Option Trade} {l l' : List Trade}
    (h : Tracks x tr l) (hk : l'.map tradeKey = l.map tradeKey) : Tracks x tr l' := by
  intro t ht
  obtain ⟨h1, h2⟩ := h t ht
  refine ⟨fun h0 => ?_, fun h0 => ?_⟩
  · rw [map_out_of_keys, hk, ← map_out_of_keys]; exact h1 h0
  · rw [hk]; exact h2 h0

theorem TradeInfo_keeps (E : Env) (fuel : Nat) (x : String) (hx : x ≠ "") (w : World) :
    Frame (fun _ => True) IsUpdate Keeps w
      (AliPay.TradeInfo E fuel { OutTradeID := x } true w).world :=
  frame_mono (TradeInfo_frame (Q := IsUpdate) keeps_preorder2 E fuel { OutTradeID := x } true w
      (fun q t => ⟨q, t, rfl⟩)
      (fun t0 t1 h0 h1 h2 h3 h4 => keeps_allowsSync x hx w.trades t0 t1 h0 h1 h2 h3 h4))
    (fun _ _ => trivial) (fun _ hq => hq) (fun _ _ ht => ht)

/-- What a sync of the order `x` returns mirrors the ledger it leaves. -/
theorem TradeInfo_tracks (E : Env) (fuel : Nat) (x : String) (hx : x ≠ "") (w w' : World)
    (r : Option Trade) (e : Error) (hok : LedgerOK w.trades)
    (h : AliPay.TradeInfo E fuel { OutTradeID := x } true w = .ok (r, e) w') :
    Tracks x r w'.trades ∧ LedgerOK w'.trades ∧ w'.trades.map tradeKey = w.trades.map tradeKey ∧
      w'.idCtr = w.idCtr := by
  have hf := TradeInfo_keeps E fuel x hx w
  rw [Outcome.world_of_ok h] at hf
  obtain ⟨hok', hk⟩ := hf.trades hok
  refine ⟨?_, hok', hk, hf.idCtr⟩
  rcases TradeInfo_val E fuel _ true w w' r e h with hr | ⟨t, hr, hid, hcase⟩
  · intro t ht
    rw [hr] at ht
    cases ht
  · intro t' ht'
    rw [hr] at ht'
    cases ht'
    refine ⟨fun h0 => ?_, fun h0 => ?_⟩
    · rw [map_out_of_keys, hk, ← map_out_of_keys]
      intro hmem
      obtain ⟨t0, ht0, hout⟩ := List.mem_map.1 hmem
      have hnone := getTrade_none (tradeInfoFilter { OutTradeID := x }) w (hid ▸ h0)
        (fun t ht => (hok.2.2 t ht).1) t0 ht0
      rw [matches_sync x hx] at hnone
      simp [hout, (hok.2.2 t0 ht0).2] at hnone
    · have hfound := getTrade_found (tradeInfoFilter { OutTradeID := x }) w (hid ▸ h0)
      rw [matches_sync x hx] at hfound
      simp only [Bool.and_eq_true, decide_eq_true_eq] at hfound
      constructor
      · rw [hk]
        refine List.mem_map.2 ⟨_, hfound.1, ?_⟩
        simp only [tradeKey, hid, hfound.2.1]
      · rcases hcase with hc | hc
        · rw [hc]; exact hfound.2.1
        · exact hc.1

/-- How `Request` comes to return: by itself, with the captured variables and the
ledger untouched, or through its callback, entered with the ledger untouched. -/
theorem Request_ok_cases (E : Env) {L : Type} (d : requestSimple L) (l : L) (w w' : World)
    (r : Info × Err × L) (h : AliPay.Request E d l w = .ok r w') :
    (r.2.2 = l ∧ w'.trades = w.trades ∧ w'.idCtr = w.idCtr) ∨
    ∃ fs result next err w3, d.fs = some fs ∧ w3.trades = w.trades ∧ w3.idCtr = w.idCtr ∧
      fs result next err l w3 = .ok r w' := by
  have h2 : Frame (fun _ => True) (fun _ => True) (fun a b : List Trade => b = a) w
      (getNowSec E (startClock E w)).2 :=
    frame_trans eq_preorder2 (frame_startClock eq_preorder2 E w)
      (frame_getNowSec eq_preorder2 E (startClock E w))
  have h3 := frame_trans eq_preorder2 h2
    (frame_send eq_preorder2 _ ⟨d.url, d.get⟩ trivial)
  rw [← request_world E d.url d.get d.relKey] at h3
  unfold AliPay.Request at h
  simp only [] at h
  split at h
  · cases h
    exact Or.inl ⟨rfl, h2.trades, h2.idCtr⟩
  · split at h
    · next result next err w3 heq =>
      rw [Outcome.world_of_ok heq] at h3
      split at h
      · next m fs hd =>
        exact Or.inr ⟨fs, result, next, _, w3, hd, h3.trades, h3.idCtr, h⟩
      · cases h
        exact Or.inl ⟨rfl, h3.trades, h3.idCtr⟩
    · cases h
    · cases h

theorem barPayPoll_tracks (E : Env) (req : BarPay) (hx : req.OutTradeID ≠ "") (fuel : Nat) :
    ∀ (l l' : BarPayLocals) (w w' : World), LedgerOK w.trades →
      Tracks req.OutTradeID l.trade w.trades → barPayPoll E req fuel l w = .ok l' w' →
      Tracks req.OutTradeID l'.trade w'.trades := by
  induction fuel with
  | zero =>
    intro l l' w w' _ ht h
    unfold barPayPoll at h
    simp only [] at h
    split at h
    · cases h
    · cases h
      exact ht
  | succ n ih =>
    intro l l' w w' hok ht h
    unfold barPayPoll at h
    simp only [] at h
    split at h
    · obtain ⟨r, w2, hti, hrest⟩ := bind_eq_ok h
      obtain ⟨t1, t2, -, -⟩ := TradeInfo_tracks E n req.OutTradeID hx (getNowSec E w).2 w2
        r.1 r.2 hok hti
      split at hrest
      · split at hrest
        · cases hrest
        · split at hrest
          · exact ih _ _ (sleep 3 w2) _ t2 t1 hrest
          · exact ih _ _ (sleep 3 w2) _ t2 t1 hrest
      · exact ih _ _ (sleep 3 w2) _ t2 t1 hrest
    · cases h
      exact ht

theorem barPayFs_tracks (E : Env) (req : BarPay) (hx : req.OutTradeID ≠ "") (url : String)
    (get : Params) (relKey : String) (fuel : Nat) :
    ∀ (result : Info) (next : Next) (err : Err) (l : BarPayLocals) (w w' : World)
      (r : Info × Err × BarPayLocals), LedgerOK w.trades →
      Tracks req.OutTradeID l.trade w.trades →
      barPayFs E req url get relKey fuel result next err l w = .ok r w' →
      Tracks req.OutTradeID r.2.2.trade w'.trades := by
  induction fuel with
  | zero =>
    intro result next err l w w' r _ ht h
    cases next <;> first
      | (cases h; done)
      | (cases h; exact ht)
  | succ n ih =>
    intro result next err l w w' r hok ht h
    have hreq : ∀ (l1 : BarPayLocals) (w1 : World), LedgerOK w1.trades →
        Tracks req.OutTradeID l1.trade w1.trades →
        AliPay.Request E ⟨url, get, relKey, some (barPayFs E req url get relKey n)⟩ l1 w1
          = .ok r w' → Tracks req.OutTradeID r.2.2.trade w'.trades := by
      intro l1 w1 hok1 ht1 h1
      rcases Request_ok_cases E _ l1 w1 w' r h1 with ⟨e1, e2, -⟩ | ⟨fs, a, b, c, w3, e1, e2, -, e4⟩
      · rw [e1, e2]; exact ht1
      · simp only [Option.some.injEq] at e1
        subst e1
        exact ih _ _ _ _ _ _ _ (e2 ▸ hok1) (e2 ▸ ht1) e4
    cases next with
    | netConnErr => exact hreq l (sleep 1 w) hok ht h
    | nextRetry =>
      unfold barPayFs at h
      simp only [] at h
      obtain ⟨r1, w1, hti, hrest⟩ := bind_eq_ok h
      obtain ⟨t1, t2, -, -⟩ := TradeInfo_tracks E n req.OutTradeID hx w w1 r1.1 r1.2 hok hti
      split at hrest
      · exact hreq _ _ t2 t1 hrest
      · split at hrest
        · cases hrest
        · next t hr1 =>
          cases hrest
          split <;> exact t1
    | nextWaitRetry =>
      unfold barPayFs at h
      simp only [] at h
      obtain ⟨l1, w1, hp, hrest⟩ := bind_eq_ok h
      cases hrest
      exact barPayPoll_tracks E req hx n { l with needCancel := true } l1 w w' hok ht hp
    | nextStop => cases h; exact ht
    | nextWaitAuth => cases h; exact ht

theorem idsFresh_step (E : Env) {w w' : World} (h : IdsFresh E w) (hc : w.idCtr ≤ w'.idCtr)
    (hids : ∀ i ∈ w'.trades.map (fun t => t.ID),
      i ∈ w.trades.map (fun t => t.ID) ∨ ∃ j, w.idCtr ≤ j ∧ j < w'.idCtr ∧ i = E.ids j) :
    IdsFresh E w' := by
  refine ⟨fun k hk => ⟨(h.1 k (le_trans hc hk)).1, fun hmem => ?_⟩,
    fun j k hj hjk => h.2 j k (le_trans hc hj) hjk⟩
  rcases hids _ hmem with h1 | ⟨j, j1, j2, j3⟩
  · exact (h.1 k (le_trans hc hk)).2 h1
  · exact h.2 j k j1 (lt_of_lt_of_le j2 hk) j3.symm

theorem idsFresh_of_keys (E : Env) {w w' : World} (h : IdsFresh E w)
    (hc : w'.idCtr = w.idCtr) (hk : w'.trades.map tradeKey = w.trades.map tradeKey) :
    IdsFresh E w' := by
  refine idsFresh_step E h (le_of_eq hc.symm) (fun i hi => Or.inl ?_)
  rw [map_id_of_keys, hk, ← map_id_of_keys] at hi
  exact hi

theorem barPayJudge_trade (E : Env) (info : Info) (err : Err) (l : BarPayLocals) :
    (barPayJudge E info err l).trade = l.trade := by
  unfold barPayJudge
  split <;> rfl

/-- The block that stores a paid trade keeps a well-kept ledger: it either keeps
the ids of every row, or, when the ledger has no row of the order, adds one row
with the next generated id. -/
theorem barPaySave_ledger (E : Env) (req : BarPay) (info : Info) (l1 : BarPayLocals)
    (w : World) (hok : LedgerOK w.trades) (hfr : IdsFresh E w)
    (htr : Tracks req.OutTradeID l1.trade w.trades) :
    LedgerOK (barPaySave E req info l1 w).world.trades ∧
    IdsFresh E (barPaySave E req info l1 w).world ∧
    ((barPaySave E req info l1 w).world.trades.map tradeKey = w.trades.map tradeKey ∨
      (req.OutTradeID ∉ w.trades.map (fun t => t.OutTradeID) ∧
        (barPaySave E req info l1 w).world.trades.map tradeKey
          = w.trades.map tradeKey ++ [(E.ids w.idCtr, req.OutTradeID)])) := by
  have hsame : ∀ w' : World, w'.trades = w.trades → w.idCtr ≤ w'.idCtr →
      LedgerOK w'.trades ∧ IdsFresh E w' ∧
      (w'.trades.map tradeKey = w.trades.map tradeKey ∨
        (req.OutTradeID ∉ w.trades.map (fun t => t.OutTradeID) ∧
          w'.trades.map tradeKey = w.trades.map tradeKey ++ [(E.ids w.idCtr, req.OutTradeID)])) := by
    intro w' h1 h2
    refine ⟨h1 ▸ hok, idsFresh_step E hfr h2 (fun i hi => Or.inl (h1 ▸ hi)), Or.inl (by rw [h1])⟩
  unfold barPaySave
  split
  · split
    · exact hsame w rfl (le_refl _)
    · next result hres =>
      obtain ⟨tr1, tr2⟩ := htr result hres
      simp only []
      split
      · next tradeID a htid hau =>
        split
        · next hid =>
          have hnot := tr1 hid
          unfold saveTrade
          split
          · exact hsame _ rfl (Nat.le_succ _)
          · simp only [Outcome.world, randomTimeString]
            have hf := hfr.1 w.idCtr (le_refl _)
            refine ⟨⟨?_, ?_, ?_⟩, ?_, Or.inr ⟨hnot, by simp [tradeKey]⟩⟩
            · rw [List.map_append, List.nodup_append]
              refine ⟨hok.1, by simp, ?_⟩
              intro i h1 h2
              simp only [List.map_cons, List.map_nil, List.mem_singleton] at h2
              exact hf.2 (h2 ▸ h1)
            · rw [List.map_append, List.nodup_append]
              refine ⟨hok.2.1, by simp, ?_⟩
              intro i h1 h2
              simp only [List.map_cons, List.map_nil, List.mem_singleton] at h2
              exact hnot (h2 ▸ h1)
            · intro t ht
              rcases List.mem_append.1 ht with h | h
              · exact hok.2.2 t h
              · simp only [List.mem_singleton] at h
                subst h
                exact ⟨hf.1, rfl⟩
            · refine idsFresh_step E hfr (Nat.le_succ _) (fun i hi => ?_)
              simp only [List.map_append, List.mem_append, List.map_cons, List.map_nil,
                List.mem_singleton] at hi
              rcases hi with h | h
              · exact Or.inl h
              · exact Or.inr ⟨w.idCtr, le_refl _, Nat.lt_succ_self _, h⟩
        · next hid =>
          obtain ⟨hmem, hout⟩ := tr2 hid
          obtain ⟨t0, ht0, hk0⟩ := List.mem_map.1 hmem
          unfold updateTrade
          split
          · exact hsame _ rfl (le_refl _)
          · simp only [Outcome.world]
            have hkeep := keeps_update w.trades
              { result with TradeID := tradeID, Amount := req.Amount, From := ALIPAY,
                            UserID := req.UserID, MchID := a.MchID, UpTime := w.A.rs.t,
                            PayTime := w.A.rs.t, Status := E.TradeStatusSucc }
              ⟨t0, ht0, by simp only [tradeKey, hout]; exact hk0⟩ rfl hok
            refine ⟨hkeep.1, ?_, Or.inl hkeep.2⟩
            exact idsFresh_of_keys E hfr rfl hkeep.2
      · exact hsame w rfl (le_refl _)
  · exact hsame w rfl (le_refl _)

theorem barPayDone_ledger (E : Env) (fuel : Nat) (req : BarPay) (info : Info) (err : Err)
    (l : BarPayLocals) (w : World) (hok : LedgerOK w.trades) (hfr : IdsFresh E w)
    (htr : Tracks req.OutTradeID l.trade w.trades) :
    LedgerOK (barPayDone E fuel req info err l w).world.trades ∧
    IdsFresh E (barPayDone E fuel req info err l w).world ∧
    ((barPayDone E fuel req info err l w).world.trades.map tradeKey = w.trades.map tradeKey ∨
      (req.OutTradeID ∉ w.trades.map (fun t => t.OutTradeID) ∧
        (barPayDone E fuel req info err l w).world.trades.map tradeKey
          = w.trades.map tradeKey ++ [(E.ids w.idCtr, req.OutTradeID)])) := by
  have hs := barPaySave_ledger E req info (barPayJudge E info err l) w hok hfr
    (by rw [barPayJudge_trade]; exact htr)
  have hcancel : ∀ w1 : World, Frame (fun _ => True) (fun _ => True)
      (fun a b : List Trade => b = a) w1
      ((AliPay.Cancel E fuel { OutTradeID := req.OutTradeID } w1).bind (fun _ w2 =>
        (Outcome.ok (none, (barPayJudge E info err l).e) w2 :
          Outcome (Option Trade × Error)))).world := by
    intro w1
    refine frame_bind eq_preorder2 ?_ (fun _ w2 _ => frame_refl eq_preorder2 w2)
    exact frame_mono (Cancel_frame (Q := fun _ => True) eq_preorder2 E fuel _ w1)
      (fun _ _ => trivial) (fun _ hq => hq) (fun _ _ ht => ht)
  have hmove : ∀ w1 w2 : World, w2.trades = w1.trades → w2.idCtr = w1.idCtr →
      (LedgerOK w1.trades ∧ IdsFresh E w1 ∧
        (w1.trades.map tradeKey = w.trades.map tradeKey ∨
          (req.OutTradeID ∉ w.trades.map (fun t => t.OutTradeID) ∧
            w1.trades.map tradeKey = w.trades.map tradeKey ++ [(E.ids w.idCtr, req.OutTradeID)]))) →
      LedgerOK w2.trades ∧ IdsFresh E w2 ∧
        (w2.trades.map tradeKey = w.trades.map tradeKey ∨
          (req.OutTradeID ∉ w.trades.map (fun t => t.OutTradeID) ∧
            w2.trades.map tradeKey = w.trades.map tradeKey ++ [(E.ids w.idCtr, req.OutTradeID)])) := by
    intro w1 w2 h1 h2 h
    refine ⟨h1 ▸ h.1, idsFresh_of_keys E h.2.1 h2 (by rw [h1]), ?_⟩
    rw [h1]
    exact h.2.2
  unfold barPayDone
  cases hsv : barPaySave E req info (barPayJudge E info err l) w with
  | ok trade w1 =>
    rw [hsv] at hs
    simp only [Outcome.bind]
    split
    · cases hc : AliPay.Cancel E fuel { OutTradeID := req.OutTradeID } w1 with
      | ok e2 w2 =>
        have := hcancel w1
        rw [hc] at this
        exact hmove w1 w2 this.trades this.idCtr hs
      | panic w2 =>
        have := hcancel w1
        rw [hc] at this
        exact hmove w1 w2 this.trades this.idCtr hs
      | outOfFuel w2 =>
        have := hcancel w1
        rw [hc] at this
        exact hmove w1 w2 this.trades this.idCtr hs
    · exact hs
  | panic w1 => rw [hsv] at hs; exact hs
  | outOfFuel w1 => rw [hsv] at hs; exact hs

theorem getTrade_out_tracks (x : String) (w : World) (hok : LedgerOK w.trades) :
    Tracks x (some (getTrade { outtradeid := some x } w)) w.trades := by
  intro t ht
  cases ht
  refine ⟨fun h0 hmem => ?_, fun h0 => ?_⟩
  · obtain ⟨t0, ht0, hout⟩ := List.mem_map.1 hmem
    have := getTrade_none { outtradeid := some x } w h0 (fun t ht => (hok.2.2 t ht).1) t0 ht0
    rw [matches_out] at this
    simp [hout] at this
  · have hf := getTrade_found { outtradeid := some x } w h0
    rw [matches_out] at hf
    simp only [decide_eq_true_eq] at hf
    exact ⟨List.mem_map.2 ⟨_, hf.1, by simp only [tradeKey, hf.2]⟩, hf.2⟩

/-- One BarPay call on a well-kept ledger: the ledger stays well kept, the ids to
come stay new, and either every row keeps its two ids or, the ledger having no row
of the order, one row is added under the next generated id. -/
theorem BarPay_ledger (E : Env) (fuel : Nat) (req : BarPay) (w : World)
    (hx : req.OutTradeID ≠ "") (hok : LedgerOK w.trades) (hfr : IdsFresh E w) :
    LedgerOK (AliPay.BarPay E fuel req w).world.trades ∧
    IdsFresh E (AliPay.BarPay E fuel req w).world ∧
    ((AliPay.BarPay E fuel req w).world.trades.map tradeKey = w.trades.map tradeKey ∨
      (req.OutTradeID ∉ w.trades.map (fun t => t.OutTradeID) ∧
        (AliPay.BarPay E fuel req w).world.trades.map tradeKey
          = w.trades.map tradeKey ++ [(E.ids w.idCtr, req.OutTradeID)])) := by
  have hsame : ∀ w' : World, w'.trades.map tradeKey = w.trades.map tradeKey →
      LedgerOK w'.trades → w'.idCtr = w.idCtr →
      LedgerOK w'.trades ∧ IdsFresh E w' ∧
      (w'.trades.map tradeKey = w.trades.map tradeKey ∨
        (req.OutTradeID ∉ w.trades.map (fun t => t.OutTradeID) ∧
          w'.trades.map tradeKey = w.trades.map tradeKey ++ [(E.ids w.idCtr, req.OutTradeID)])) :=
    fun w' h1 h2 h3 => ⟨h2, idsFresh_of_keys E hfr h3 h1, Or.inl h1⟩
  have h1 := frame_token (P := fun _ => True) (Q := fun _ => True) eq_preorder2 E
    req.UserID req.MchID w
  unfold AliPay.BarPay
  simp only []
  generalize AliPay.token E req.UserID req.MchID w = tk at h1 ⊢
  obtain ⟨a, w1⟩ := tk
  simp only [] at h1 ⊢
  have ht1 : w1.trades = w.trades := h1.trades
  split
  · exact hsame w1 (by rw [ht1]) (ht1 ▸ hok) h1.idCtr
  · split
    · exact hsame w1 (by rw [ht1]) (ht1 ▸ hok) h1.idCtr
    · have hw2 := (barPayParams_wire E a req w1 "").1
      have ht2 : (barPayParams E a req w1).2.trades = w.trades := by rw [hw2]; exact ht1
      have hc2 : (barPayParams E a req w1).2.idCtr = w.idCtr := by rw [hw2]; exact h1.idCtr
      generalize barPayParams E a req w1 = tp at ht2 hc2 ⊢
      obtain ⟨sp, w2⟩ := tp
      simp only [] at ht2 hc2 ⊢
      have hok2 : LedgerOK w2.trades := ht2 ▸ hok
      have hfrm := Request_barPay_frame (P := fun _ => True) keeps_preorder2 E req
        (fun _ => True) (fun _ _ _ _ => trivial)
        (fun fuel w0 _ => TradeInfo_keeps E fuel req.OutTradeID hx w0)
        w2.A.url sp "alipay_trade_pay_response" trivial fuel
        { trade := some (getTrade { outtradeid := some req.OutTradeID } w1) } w2 trivial
      obtain ⟨hok3, hk3⟩ := hfrm.trades hok2
      rw [ht2] at hk3
      have hc3 := hfrm.idCtr.trans hc2
      cases hreq : AliPay.Request E
          ⟨w2.A.url, sp, "alipay_trade_pay_response",
            some (barPayFs E req w2.A.url sp "alipay_trade_pay_response" fuel)⟩
          { trade := some (getTrade { outtradeid := some req.OutTradeID } w1) } w2 with
      | ok r w3 =>
        rw [hreq] at hok3 hk3 hc3
        simp only [Outcome.world] at hok3 hk3 hc3
        simp only [Outcome.bind]
        have htr0 : Tracks req.OutTradeID
            (some (getTrade { outtradeid := some req.OutTradeID } w1)) w2.trades := by
          rw [ht2, ← ht1]
          exact getTrade_out_tracks req.OutTradeID w1 (ht1 ▸ hok)
        have htr3 : Tracks req.OutTradeID r.2.2.trade w3.trades := by
          rcases Request_ok_cases E _ _ w2 w3 r hreq with ⟨e1, e2, -⟩ | ⟨fs, x1, x2, x3, w4, e1, e2, -, e4⟩
          · rw [e1, e2]; exact htr0
          · simp only [Option.some.injEq] at e1
            subst e1
            exact barPayFs_tracks E req hx _ _ _ fuel _ _ _ _ _ _ _ (e2 ▸ hok2) (e2 ▸ htr0) e4
        have hfr3 : IdsFresh E w3 := idsFresh_of_keys E hfr hc3 hk3
        obtain ⟨d1, d2, d3⟩ := barPayDone_ledger E fuel req r.1 r.2.1 r.2.2 w3 hok3 hfr3 htr3
        refine ⟨d1, d2, ?_⟩
        rw [hk3, hc3, map_out_of_keys w3.trades, hk3, ← map_out_of_keys] at d3
        exact d3
      | panic w3 =>
        rw [hreq] at hok3 hk3 hc3
        exact hsame w3 hk3 hok3 hc3
      | outOfFuel w3 =>
        rw [hreq] at hok3 hk3 hc3
        exact hsame w3 hk3 hok3 hc3

theorem barPaySeq_ledger (E : Env) (x : String) (hx : x ≠ "") (calls : List (Nat × BarPay)) :
    ∀ w : World, (∀ p ∈ calls, p.2.OutTradeID = x) → LedgerOK w.trades → IdsFresh E w →
      LedgerOK (barPaySeq E calls w).trades ∧ IdsFresh E (barPaySeq E calls w) := by
  induction calls with
  | nil => intro w _ hok hfr; exact ⟨hok, hfr⟩
  | cons p ps ih =>
    intro w hall hok hfr
    have hp : p.2.OutTradeID ≠ "" := by
      rw [hall p (List.mem_cons_self _ _)]; exact hx
    obtain ⟨b1, b2, -⟩ := BarPay_ledger E p.1 p.2 w hp hok hfr
    exact ih _ (fun q hq => hall q (List.mem_cons_of_mem _ hq)) b1 b2

theorem getTrade_of_mem (x : String) (w : World) (t : Trade) (hok : LedgerOK w.trades)
    (ht : t ∈ w.trades) (hout : t.OutTradeID = x) :
    getTrade { outtradeid := some x } w = t := by
  unfold getTrade
  cases hf : w.trades.find? (TradeFilter.matches { outtradeid := some x }) with
  | none =>
    have := List.find?_eq_none.1 hf t ht
    rw [matches_out] at this
    simp [hout] at this
  | some t' =>
    simp only []
    have h1 := List.mem_of_find?_eq_some hf
    have h2 := List.find?_some hf
    rw [matches_out] at h2
    simp only [decide_eq_true_eq] at h2
    exact List.inj_on_of_nodup_map hok.2.1 h1 ht (h2.trans hout.symm)

/-- C6 fails on the code.  The ledger holds one trade of the order `o1`, unpaid and
of another channel.  BarPay finds it by the order id alone; when the payment is
accepted at once it writes over that row in place, as the claim says.  But when
the payment is answered `10003`, the callback replaces the local record by the
one of the status query, which looks the order up under the Alipay channel only
and so carries no internal ID: BarPay inserts a second trade of `o1`.  On the
ledger so left a further BarPay call, on a fresh client, still finds the unpaid
row first: it sends the payment again instead of returning `PayErrPayed`. -/
theorem C6_duplicate_trade :
    (foreignWorld.trades.map (fun t => t.OutTradeID)).Nodup ∧
    ((AliPay.BarPay (demoEnv directGateway demoClock) 10 demoBarPay foreignWorld).world.trades.map
        (fun t => (t.ID, t.OutTradeID, t.From, t.Status))
      = [("w1", "o1", ALIPAY, (demoEnv directGateway demoClock).TradeStatusSucc)]) ∧
    ((AliPay.BarPay (demoEnv waitGateway jumpClock) 10 demoBarPay foreignWorld).world.trades.map
        (fun t => (t.OutTradeID, t.From, t.Status))
      = [("o1", "wxpay", 0), ("o1", ALIPAY, (demoEnv waitGateway jumpClock).TradeStatusSucc)]) ∧
    (((AliPay.BarPay (demoEnv waitGateway jumpClock) 10 demoBarPay
        foreignWorld).world.trades.map (fun t => t.OutTradeID)).count "o1" = 2) ∧
    (methodsSent (AliPay.BarPay (demoEnv directGateway demoClock) 10 demoBarPay
        { demoWorld with trades := (AliPay.BarPay (demoEnv waitGateway jumpClock) 10 demoBarPay
          foreignWorld).world.trades }).world
      = [some "alipay.trade.pay"]) ∧
    ((AliPay.BarPay (demoEnv directGateway demoClock) 10 demoBarPay
        { demoWorld with trades := (AliPay.BarPay (demoEnv waitGateway jumpClock) 10 demoBarPay
          foreignWorld).world.trades }).val.map (fun r => r.2.Code)
      = some 0) ∧
    (demoEnv directGateway demoClock).PayErrPayed ≠ 0 := by
  decide

/-- Where the ledger is kept to this channel the invariant does hold: over a ledger
of Alipay trades whose internal IDs are not empty and pairwise distinct and whose
external order ids are pairwise distinct, with generated ids that are new, every
sequence of BarPay calls for one non-empty external order id leaves the ledger
so, hence with at most one trade of that order; a single call either keeps the
internal ID and order id of every row or, only when the ledger has no row of the
order, adds one row under the next generated id; and a call made under a valid
Auth when the order's trade is in status Success returns `PayErrPayed` with
nothing written and nothing sent. -/
theorem barPaySeq_one_trade (E : Env) (x : String) (w : World) (hx : x ≠ "")
    (hok : LedgerOK w.trades) (hfr : IdsFresh E w) :
    (∀ calls : List (Nat × BarPay), (∀ p ∈ calls, p.2.OutTradeID = x) →
      LedgerOK (barPaySeq E calls w).trades ∧
      ((barPaySeq E calls w).trades.map (fun t => t.OutTradeID)).count x ≤ 1) ∧
    (∀ (fuel : Nat) (req : BarPay), req.OutTradeID = x →
      (AliPay.BarPay E fuel req w).world.trades.map tradeKey = w.trades.map tradeKey ∨
      (x ∉ w.trades.map (fun t => t.OutTradeID) ∧
        (AliPay.BarPay E fuel req w).world.trades.map tradeKey
          = w.trades.map tradeKey ++ [(E.ids w.idCtr, x)])) ∧
    (∀ (fuel : Nat) (req : BarPay) (t : Trade), req.OutTradeID = x → t ∈ w.trades →
      t.OutTradeID = x → t.Status = E.TradeStatusSucc →
      (AliPay.token E req.UserID req.MchID w).1.Status = E.AuthStatusSucc →
      ∃ w1, AliPay.BarPay E fuel req w = .ok (some t, { Code := E.PayErrPayed }) w1 ∧
        w1.writes = w.writes ∧ w1.trades = w.trades ∧ w1.sent = w.sent) := by
  refine ⟨?_, ?_, ?_⟩
  · intro calls hall
    obtain ⟨h1, -⟩ := barPaySeq_ledger E x hx calls w hall hok hfr
    exact ⟨h1, List.nodup_iff_count_le_one.1 h1.2.1 x⟩
  · intro fuel req hreq
    subst hreq
    exact (BarPay_ledger E fuel req w hx hok hfr).2.2
  · intro fuel req t hreq ht hout hst hauth
    have htw := token_world E req.UserID req.MchID w
    have hg : getTrade { outtradeid := some req.OutTradeID }
        (AliPay.token E req.UserID req.MchID w).2 = t := by
      rw [getTrade_congr _ htw.2.2.1, hreq]
      exact getTrade_of_mem x w t hok ht hout
    refine ⟨(AliPay.token E req.UserID req.MchID w).2, ?_, htw.2.1, htw.2.2.1, htw.1⟩
    unfold AliPay.BarPay
    simp only [hauth, ne_eq, not_true_eq_false, if_false, hg, (hok.2.2 t ht).1, hst,
      not_false_eq_true, and_self, if_true]

theorem demo_idsFresh (gateway : Nat → Body) (clock : Nat → Int) :
    IdsFresh (demoEnv gateway clock) paidWorld := by
  refine ⟨fun k _ => ⟨?_, ?_⟩, fun j k _ hjk => ?_⟩
  · intro h
    have := congrArg String.length h
    simp [demoEnv, String.length] at this
  · intro h
    simp only [paidWorld, List.map_cons, List.map_nil, List.mem_singleton] at h
    have h2 : (List.replicate (k + 1) 'i') = ['t', '1'] := by
      have := congrArg String.data h
      simpa [demoEnv] using this
    rw [List.replicate_succ] at h2
    have h3 := (List.cons.inj h2).1
    exact absurd h3 (by decide)
  · intro h
    have := congrArg String.length h
    simp [demoEnv, String.length] at this
    omega

/-- The invariant at a concrete input: the ledger holds the paid Alipay trade `t1`
of the order `o1`; two further BarPay calls for `o1` leave one trade of the order,
and a call returns `PayErrPayed` with nothing written. -/
theorem barPaySeq_one_trade_example :
    ((barPaySeq (demoEnv waitGateway jumpClock) [(10, demoBarPay), (10, demoBarPay)]
        paidWorld).trades.map (fun t => t.OutTradeID)).count "o1" ≤ 1 ∧
    ∃ w1, AliPay.BarPay (demoEnv waitGateway jumpClock) 10 demoBarPay paidWorld
        = .ok (some { ID := "t1", OutTradeID := "o1", From := ALIPAY, Status := 1 },
            { Code := 2003 }) w1 ∧
      w1.writes = paidWorld.writes ∧ w1.trades = paidWorld.trades ∧ w1.sent = paidWorld.sent :=
  ⟨((barPaySeq_one_trade (demoEnv waitGateway jumpClock) "o1" paidWorld (by decide)
      (by unfold LedgerOK; decide) (demo_idsFresh _ _)).1
        [(10, demoBarPay), (10, demoBarPay)] (by decide)).2,
    (barPaySeq_one_trade (demoEnv waitGateway jumpClock) "o1" paidWorld (by decide)
      (by unfold LedgerOK; decide) (demo_idsFresh _ _)).2.2 10 demoBarPay
        { ID := "t1", OutTradeID := "o1", From := ALIPAY, Status := 1 } rfl (by decide) rfl rfl
        (by decide)⟩

/-! ### Token exchange -/

/-- C11 fails on the code.  When the remote call of Auth fails with the error string
`s`, the first block does set the code to `aliErrMap[s]` or, for a string that
is not a key, to `AuthErr`; but the statement `if err != nil` that follows the
block is reached with the same `err`, so the code is set to `SysErrDB` and the
message to `s`.  At a gateway that answers `40004` / `ACQ.TRADE_NOT_EXIST` (a key
of the table) and at a gateway that cannot be reached (not a key), Auth returns
`SysErrDB` although no Auth record was saved or updated. -/
theorem C11_remote_error_overwritten :
    (∀ (E : Env) (info : Info) (s : String) (w : World),
      authExchange E info (some s) w
        = .ok (none, { Msg := E.jsonEncodeInfo info, Code := errCode E s E.AuthErr }, some s) w) ∧
    (∀ (E : Env) (e : Error) (s : String),
      authJudge E e (some s) = { Code := E.SysErrDB, Msg := s }) ∧
    (aliErrMap (demoEnv refusingGateway demoClock) "40004ACQ.TRADE_NOT_EXIST"
        = some (demoEnv refusingGateway demoClock).TradeErrNotFound ∧
      (AliPay.Auth (demoEnv refusingGateway demoClock) "c1" demoWorld).val.map
          (fun r => (r.2.Code, r.2.Msg))
        = some ((demoEnv refusingGateway demoClock).SysErrDB, "40004ACQ.TRADE_NOT_EXIST") ∧
      (demoEnv refusingGateway demoClock).SysErrDB
        ≠ (demoEnv refusingGateway demoClock).TradeErrNotFound ∧
      (AliPay.Auth (demoEnv refusingGateway demoClock) "c1" demoWorld).world.writes = []) ∧
    (aliErrMap (demoEnv deadGateway demoClock) "unreachable" = none ∧
      (AliPay.Auth (demoEnv deadGateway demoClock) "c1" demoWorld).val.map
          (fun r => (r.2.Code, r.2.Msg))
        = some ((demoEnv deadGateway demoClock).SysErrDB, "unreachable") ∧
      (demoEnv deadGateway demoClock).SysErrDB ≠ (demoEnv deadGateway demoClock).AuthErr ∧
      (AliPay.Auth (demoEnv deadGateway demoClock) "c1" demoWorld).world.writes = []) := by
  refine ⟨fun _ _ _ _ => rfl, fun _ _ _ => rfl, by decide, by decide⟩

end ppp
